import Mathlib

set_option linter.unusedVariables false

/-!
A verification development for `kernel_hardening_checker/__init__.py`
(kernel-hardening-checker 0.6.10).

The Python module is shallowly embedded below.  Files are modelled as lists
of their lines *without* the trailing newline characters that Python's
`readlines()` keeps; a regex `$` anchor therefore becomes an `endsWith`
test on the line, and `line[19:-1]`-style newline stripping becomes a plain
`String.drop`.  `sys.exit(...)` and failed `assert`s are modelled as the
`Except.error` constructor, which is threaded through every subsequent
step (the process terminates, so an error absorbs the rest of the run).
Python dictionaries of strings are modelled as association lists with
replace-on-update semantics.
-/

namespace KHC

/-- Python `c in s` for a character `c` and string `s`. -/
def pyContains (s : String) (c : Char) : Bool :=
  s.toList.contains c

/-- The characters before the first occurrence of `c`: Python `s.split(c, 1)[0]`. -/
def beforeFirst (s : String) (c : Char) : String :=
  (s.toList.takeWhile (fun x => x != c)).asString

/-- The characters after the first occurrence of `c`: Python `s.split(c, 1)[1]`
(and `""` when `c` does not occur, a case call sites guard against). -/
def afterFirst (s : String) (c : Char) : String :=
  ((s.toList.dropWhile (fun x => x != c)).drop 1).asString

/-- Python `s.startswith(p)`. -/
def pyStartsWith (s p : String) : Bool :=
  p.toList.isPrefixOf s.toList

/-- Python `s.strip()`: drop leading and trailing whitespace. -/
def pyStrip (s : String) : String :=
  ((s.toList.dropWhile Char.isWhitespace).reverse.dropWhile
    Char.isWhitespace).reverse.asString

/-- Accumulator-based splitter behind `pySplitWS`. -/
def splitWSAux : List Char → List Char → List String
  | [], acc => if acc.isEmpty then [] else [acc.reverse.asString]
  | c :: rest, acc =>
    if c.isWhitespace then
      if acc.isEmpty then splitWSAux rest []
      else acc.reverse.asString :: splitWSAux rest []
    else splitWSAux rest (c :: acc)

/-- Python `s.split()`: split on whitespace runs, dropping empty pieces. -/
def pySplitWS (s : String) : List String :=
  splitWSAux s.toList []

/-- Accumulator-based splitter behind `pySplitOnChar`. -/
def splitOnCharAux (c : Char) : List Char → List Char → List (List Char)
  | [], acc => [acc.reverse]
  | x :: rest, acc =>
    if x == c then acc.reverse :: splitOnCharAux c rest []
    else splitOnCharAux c rest (x :: acc)

/-- Python `s.split(c)` for a one-character separator: empty pieces are kept,
and the empty string yields `[""]`. -/
def pySplitOnChar (s : String) (c : Char) : List String :=
  (splitOnCharAux c s.toList []).map List.asString

/-- A Python `Dict[str, str]`, as an association list. -/
abbrev Dict := List (String × String)

/-- Python `k in d` for a dict. -/
def dictMem (d : Dict) (k : String) : Bool :=
  d.any (fun p => p.1 == k)

/-- Python `d.get(k, None)` / `d[k]` lookups. -/
def dictGet : Dict → String → Option String
  | [], _ => none
  | p :: t, k => if p.1 == k then some p.2 else dictGet t k

/-- Python `d[k] = v`: replace the binding in place if the key is present,
else append a fresh binding. -/
def dictInsert : Dict → String → String → Dict
  | [], k, v => [(k, v)]
  | p :: t, k, v => if p.1 == k then (k, v) :: t else p :: dictInsert t k v

/-!
### `parse_cmdline_file` (source lines 197–219)

`normalize_cmdline_options` lives in the excluded `checks` module, so the
parser is parameterized by an arbitrary normalization function, exactly as
the source calls it: `value = normalize_cmdline_options(name, value)`.
-/

/-- The name a cmdline token is recorded under:
`opt.split('=', 1)[0]` when the token contains `=`, the whole token otherwise. -/
def cmdName (t : String) : String :=
  if pyContains t '=' then beforeFirst t '=' else t

/-- The raw (pre-normalization) value a cmdline token carries: the text after
the first `=`, and `''` for a bare flag (`'' is not None`). -/
def cmdVal (t : String) : String :=
  if pyContains t '=' then afterFirst t '=' else ""

/-- One iteration of the `for opt in opts` loop of `parse_cmdline_file`.
The duplicate-name case only prints a warning and overwrites. -/
def cmdlineStep (normalize : String → String → String) (d : Dict) (t : String) : Dict :=
  dictInsert d (cmdName t) (normalize (cmdName t) (cmdVal t))

/-- The `for opt in opts` loop of `parse_cmdline_file` over the
whitespace-split tokens of the single cmdline line. -/
def parseCmdlineTokens (normalize : String → String → String) (tokens : List String) : Dict :=
  tokens.foldl (cmdlineStep normalize) []

/-- Function `parse_cmdline_file`, on the list of lines of the cmdline file:
an empty file and a file of more than one line are fatal. -/
def parse_cmdline_file (normalize : String → String → String) (lines : List String) :
    Except String Dict :=
  match lines with
  | [] => Except.error "ERROR: empty cmdline file"
  | [l] => Except.ok (parseCmdlineTokens normalize (pySplitWS l))
  | _ => Except.error "ERROR: more than one line in cmdline file"

/-!
### `parse_sysctl_file` (source lines 222–247)
-/

/-- A character of the sysctl option-name class `[a-zA-Z0-9/\._-]`. -/
def isSysctlChar (c : Char) : Bool :=
  c.isAlpha || c.isDigit || c = '/' || c = '.' || c = '_' || c = '-'

/-- Matcher for `re.match` of `[a-zA-Z0-9/\._-]+ ?=.*$`: a non-empty run of name
characters, an optional single space, then `=`.  The name class contains
neither a space nor `=`, so the greedy run is the maximal one. -/
def sysctl_pattern_match (line : String) : Bool :=
  let run := line.toList.takeWhile isSysctlChar
  let rest := line.toList.dropWhile isSysctlChar
  !run.isEmpty &&
    (match rest with
     | '=' :: _ => true
     | ' ' :: '=' :: _ => true
     | _ => false)

/-- What the line loop of `parse_sysctl_file` does with one line. -/
inductive SysctlLine
  | skip
  | entry (name value : String)
  | bad (line : String)
deriving DecidableEq, Repr

/-- Classify one line of a sysctl dump, after stripping: blank and comment
lines are skipped, a line matching the sysctl pattern records its stripped
name and value (`line.split('=', 1)`, each `.strip()`ed), anything else is
malformed. -/
def classifySysctlLine (l : String) : SysctlLine :=
  if pyStrip l = "" ∨ pyStartsWith (pyStrip l) "#" then SysctlLine.skip
  else if sysctl_pattern_match (pyStrip l) then
    SysctlLine.entry (pyStrip (beforeFirst (pyStrip l) '=')) (pyStrip (afterFirst (pyStrip l) '='))
  else SysctlLine.bad (pyStrip l)

/-- One iteration of the line loop of `parse_sysctl_file`: a malformed line
is fatal, and duplicates simply overwrite ("sysctl options may be found
multiple times, let's save the last value"). -/
def sysctlStep (st : Except String Dict) (l : String) : Except String Dict :=
  match st with
  | Except.error e => Except.error e
  | Except.ok d =>
    match classifySysctlLine l with
    | SysctlLine.skip => Except.ok d
    | SysctlLine.entry n v => Except.ok (dictInsert d n v)
    | SysctlLine.bad line =>
      Except.error ("ERROR: unexpected line in sysctl file: " ++ line)

/-- Function `parse_sysctl_file` over the lines of the file (the `os.stat` size check
makes an empty file fatal; the missing-`kernel.printk`/`kernel.cad_pid`
warnings only print). -/
def parse_sysctl_file (lines : List String) : Except String Dict :=
  if lines.isEmpty then Except.error "ERROR: empty sysctl file"
  else lines.foldl sysctlStep (Except.ok [])

/-- The pair a sysctl line records: `none` for a skipped (blank or comment)
line, and also for a malformed line — which, however, aborts the whole parse,
so under a successful parse `none` means "skipped". -/
def sysctlLineRecord (l : String) : Option (String × String) :=
  match classifySysctlLine l with
  | SysctlLine.entry n v => some (n, v)
  | _ => none

/-!
### `parse_kconfig_file` (source lines 166–194)
-/

/-- A character of the Kconfig option-name class `[a-zA-Z0-9_]`. -/
def isWordChar (c : Char) : Bool :=
  c.isAlphanum || c = '_'

/-- Matcher for `re.match` of `CONFIG_[a-zA-Z0-9_]+=.*$`: the name class contains no `=`,
so the line matches exactly when it starts with `CONFIG_`, continues with a
non-empty run of name characters, and then has an `=`. -/
def kconfigOnMatch (line : String) : Bool :=
  "CONFIG_".toList.isPrefixOf line.toList &&
    (!((line.toList.drop 7).takeWhile isWordChar).isEmpty &&
       (match (line.toList.drop 7).dropWhile isWordChar with
        | '=' :: _ => true
        | _ => false))

/-- Matcher for `re.match` of `# CONFIG_[a-zA-Z0-9_]+ is not set$` (the `$` holds because
lines are modelled without their trailing newline): the line is exactly
`# CONFIG_`, a non-empty run of name characters, and ` is not set`. -/
def kconfigOffMatch (line : String) : Bool :=
  "# CONFIG_".toList.isPrefixOf line.toList &&
    " is not set".toList.isSuffixOf line.toList &&
    21 ≤ line.toList.length &&
    ((line.toList.drop 9).take (line.toList.length - 20)).all isWordChar

/-- The option name of an enabled Kconfig line: `line.split('=', 1)[0]`. -/
def kconfigOnName (line : String) : String :=
  beforeFirst line '='

/-- The value of an enabled Kconfig line: `line.split('=', 1)[1]`. -/
def kconfigOnValue (line : String) : String :=
  afterFirst line '='

/-- The option name of a disabled Kconfig line: `line[2:].split(' ', 1)[0]`. -/
def kconfigOffName (line : String) : String :=
  ((line.toList.drop 2).takeWhile (fun c => c != ' ')).asString

/-- What the line loop of `parse_kconfig_file` does with one line. -/
inductive KconfigLine
  | on (name value : String)
  | off (name : String)
  | skip
  | bad (line : String)
deriving DecidableEq, Repr

/-- Classify one stripped Kconfig line.  The source's
`elif line != '' and not line.startswith('#')` malformed case is written here
with the condition negated (skip a blank or comment line, everything else
unmatched is malformed), which is the same decision.  For a disabled line the
source's `assert value == 'is not set'` always holds, by the shape of the
pattern. -/
def classifyKconfigLine (l : String) : KconfigLine :=
  if kconfigOnMatch (pyStrip l) then
    KconfigLine.on (kconfigOnName (pyStrip l)) (kconfigOnValue (pyStrip l))
  else if kconfigOffMatch (pyStrip l) then KconfigLine.off (kconfigOffName (pyStrip l))
  else if pyStrip l = "" ∨ pyStartsWith (pyStrip l) "#" then KconfigLine.skip
  else KconfigLine.bad (pyStrip l)

/-- One iteration of the line loop of `parse_kconfig_file`: an enabled option
whose value is the literal `is not set` is fatal, an empty value only warns,
a non-comment line matching neither pattern is fatal, and a duplicate option
name is fatal. -/
def kconfigStep (st : Except String Dict) (l : String) : Except String Dict :=
  match st with
  | Except.error e => Except.error e
  | Except.ok d =>
    match classifyKconfigLine l with
    | KconfigLine.on name value =>
      if value = "is not set" then
        Except.error ("ERROR: bad enabled Kconfig option " ++ pyStrip l)
      else if dictMem d name then
        Except.error ("ERROR: Kconfig option " ++ pyStrip l ++ " is found multiple times")
      else Except.ok (dictInsert d name value)
    | KconfigLine.off name =>
      if dictMem d name then
        Except.error ("ERROR: Kconfig option " ++ pyStrip l ++ " is found multiple times")
      else Except.ok (dictInsert d name "is not set")
    | KconfigLine.skip => Except.ok d
    | KconfigLine.bad line =>
      Except.error ("ERROR: unexpected line in Kconfig file: " ++ line)

/-- Function `parse_kconfig_file` over the lines of the Kconfig file. -/
def parse_kconfig_file (lines : List String) : Except String Dict :=
  lines.foldl kconfigStep (Except.ok [])

/-!
### `detect_kernel_version` (source lines 79–93)
-/

/-- Matcher for `re.match` of `^# Linux/.+ Kernel Configuration$|^Linux version .+`.
Lines carry no newline, so `.+` is "at least one more character" and the
`$` is the end of the line; the alternatives are prefix/suffix shapes
because the name classes place no constraint on the middle text. -/
def ver_line_match (line : String) : Bool :=
  ("# Linux/".toList.isPrefixOf line.toList &&
     " Kernel Configuration".toList.isSuffixOf line.toList &&
     30 ≤ line.toList.length) ||
  ("Linux version ".toList.isPrefixOf line.toList && 15 ≤ line.toList.length)

/-- Python `str.isdecimal()` on the ASCII inputs at hand: non-empty, all
decimal digits. -/
def isDecimalStr (s : String) : Bool :=
  !s.toList.isEmpty && s.toList.all Char.isDigit

/-- Python `int(...)` on a decimal-digit string. -/
def digitsToNat (s : String) : Nat :=
  s.toList.foldl (fun n c => n * 10 + (c.toNat - 48)) 0

/-- Computes `parts[2].split('-', 1)[0].split('.')`: the version components of the
third whitespace field. -/
def verComponents (p2 : String) : List String :=
  pySplitOnChar (beforeFirst p2 '-') '.'

/-- The third whitespace-separated field of a line, when it exists. -/
def thirdField (l : String) : Option String :=
  (pySplitWS l).get? 2

/-- The outcome of `detect_kernel_version`: a version tuple, `None` with a
message, or an unhandled `IndexError` on `parts[2]`. -/
inductive KVerResult
  | found (ver : List Nat)
  | nofound (msg : String)
  | crash
deriving DecidableEq, Repr

/-- The body run for the first line matching the version pattern
(`line.strip()` before `line.split()` does not change the whitespace
fields, so the fields are taken from the raw line). -/
def processVerLine (l : String) : KVerResult :=
  match pySplitWS l with
  | _ :: _ :: p2 :: _ =>
    if 3 ≤ (verComponents p2).length ∧ (verComponents p2).all isDecimalStr = true then
      KVerResult.found ((verComponents p2).map digitsToNat)
    else KVerResult.nofound ("failed to parse the version \"" ++ p2 ++ "\"")
  | _ => KVerResult.crash

/-- Function `detect_kernel_version` over the lines of the file: the first line
matching the version pattern decides the outcome, and the loop returns
from inside its body. -/
def detect_kernel_version : List String → KVerResult
  | [] => KVerResult.nofound "no kernel version detected"
  | l :: rest =>
    if ver_line_match l then processVerLine l else detect_kernel_version rest

/-!
### `detect_arch_kconfig` (source lines 41–57)
-/

/-- The microarchitectures the tool supports. -/
def SUPPORTED_ARCHS : List String :=
  ["X86_64", "X86_32", "ARM64", "ARM"]

/-- A character of the class `[A-Z0-9_]` of the arch pattern. -/
def isUpperWordChar (c : Char) : Bool :=
  c.isUpper || c.isDigit || c = '_'

/-- The capture group of the leftmost match of `CONFIG_([A-Z0-9_]+)=y$` in
the body of the line (the line minus its final `=y`): at the first position
where `CONFIG_` occurs and everything after it is a non-empty run of
`[A-Z0-9_]` characters reaching the end of the body, that run is the group.
Any match ends at `$`, so the group must reach the end of the body. -/
def archGroupSearch : List Char → Option (List Char)
  | [] => none
  | c :: rest =>
    if "CONFIG_".toList.isPrefixOf (c :: rest) then
      if !((c :: rest).drop 7).isEmpty && ((c :: rest).drop 7).all isUpperWordChar then
        some ((c :: rest).drop 7)
      else archGroupSearch rest
    else archGroupSearch rest

/-- Computes `m.group(1)` of `re.search("CONFIG_([A-Z0-9_]+)=y$", line)` when the
search succeeds. -/
def lineArchOption (line : String) : Option String :=
  if "=y".toList.isSuffixOf line.toList then
    (archGroupSearch (line.toList.take (line.toList.length - 2))).map List.asString
  else none

/-- Does the line contribute a supported architecture to the scan? -/
def supportedArchLine (line : String) : Bool :=
  match lineArchOption line with
  | some o => SUPPORTED_ARCHS.contains o
  | none => false

/-- The scan loop of `detect_arch_kconfig`, carrying the architecture seen
so far: an unsupported group is skipped (`continue`), a second supported
group — even an equal one — returns the more-than-one error immediately. -/
def detectArchGo : Option String → List String → Option String × String
  | acc, [] =>
    match acc with
    | none => (none, "failed to detect microarchitecture in kconfig")
    | some a => (some a, "OK")
  | acc, l :: ls =>
    match lineArchOption l with
    | some o =>
      if SUPPORTED_ARCHS.contains o then
        match acc with
        | none => detectArchGo (some o) ls
        | some _ => (none, "detected more than one microarchitecture in kconfig")
      else detectArchGo acc ls
    | none => detectArchGo acc ls

/-- Function `detect_arch_kconfig` over the lines of the Kconfig file. -/
def detect_arch_kconfig (lines : List String) : Option String × String :=
  detectArchGo none lines

/-!
### The check model (`engine.ChecklistObjType`)

The `engine` and `checks` modules are not part of the embedded source file;
only the fields and operations the embedded driver code reads and writes
are modelled, from the spec where the code is missing.
-/

/-- The slice of a checklist item (`ChecklistObjType`) the embedded driver
reads and writes.  Modelled from the spec: §3 lists the common attributes
`name`, `source`, `expected`, `observed`, `result` (the informational
`category`/`justification` are omitted: nothing embedded here reads them);
the kernel-version source carries a version tuple rather than a string, kept
in a separate field. -/
structure Check where
  name : String
  source : String
  expected : String
  observed : Option String
  observedVersion : Option (List Nat)
  result : Option String
deriving DecidableEq, Repr

/-!
### `print_checklist` (source lines 114–163)
-/

/-- The observable outcome of `print_checklist`: the checks printed as table
rows in order, the OK/FAIL tallies, the final score line (when results are
requested), and the checks dumped on the JSON path — which prints no table
and no score line. -/
structure PrintOut where
  jsonOut : Option (List Check)
  table : List Check
  okCount : Nat
  failCount : Nat
  score : Option (Nat × Nat)
deriving DecidableEq, Repr

/-- One iteration of the table loop of `print_checklist`: with results, an
empty (`None` or `''`) result fails the first assert; a result starting with
`OK` is counted and suppressed under `show_fail`; anything else must start
with `FAIL` (second assert), is counted, and is suppressed under `show_ok`.
Without results every check is printed and nothing is counted. -/
def printStep (mode : Option String) (withResults : Bool)
    (st : Nat × Nat × List Check) (opt : Check) :
    Except String (Nat × Nat × List Check) :=
  if withResults then
    match opt.result with
    | none =>
      Except.error ("assert failed: unexpected empty result of " ++ opt.name ++ " check")
    | some r =>
      if r = "" then
        Except.error ("assert failed: unexpected empty result of " ++ opt.name ++ " check")
      else if pyStartsWith r "OK" then
        if mode = some "show_fail" then Except.ok (st.1 + 1, st.2.1, st.2.2)
        else Except.ok (st.1 + 1, st.2.1, st.2.2 ++ [opt])
      else if pyStartsWith r "FAIL" then
        if mode = some "show_ok" then Except.ok (st.1, st.2.1 + 1, st.2.2)
        else Except.ok (st.1, st.2.1 + 1, st.2.2 ++ [opt])
      else
        Except.error ("assert failed: unexpected result of " ++ opt.name ++ " check")
  else Except.ok (st.1, st.2.1, st.2.2 ++ [opt])

/-- The table loop of `print_checklist`, threading the counters and the rows
printed so far. -/
def printFold (mode : Option String) (withResults : Bool) :
    Nat × Nat × List Check → List Check → Except String (Nat × Nat × List Check)
  | st, [] => Except.ok st
  | st, c :: cs =>
    match printStep mode withResults st c with
    | Except.error e => Except.error e
    | Except.ok st2 => printFold mode withResults st2 cs

/-- Function `print_checklist`: `json` mode dumps every check and returns before the
table; otherwise the table is traversed in checklist order and, with
results, the final score line reports both counters. -/
def print_checklist (mode : Option String) (checklist : List Check)
    (withResults : Bool) : Except String PrintOut :=
  if mode = some "json" then
    Except.ok ⟨some checklist, [], 0, 0, none⟩
  else
    match printFold mode withResults (0, 0, []) checklist with
    | Except.error e => Except.error e
    | Except.ok (ok, fail, tbl) =>
      Except.ok ⟨none, tbl, ok, fail, if withResults then some (ok, fail) else none⟩

/-- Does the table loop print this check (is it not suppressed)? -/
def printKeep (mode : Option String) (withResults : Bool) (c : Check) : Bool :=
  if withResults then
    match c.result with
    | none => false
    | some r =>
      if pyStartsWith r "OK" then !(mode == some "show_fail")
      else !(mode == some "show_ok")
  else true

/-- A result `print_checklist` would assert on with results requested:
empty, or starting with neither `OK` nor `FAIL`. -/
def badResult (c : Check) : Bool :=
  match c.result with
  | none => true
  | some r => r = "" || (!pyStartsWith r "OK" && !pyStartsWith r "FAIL")

/-- The check counts towards `ok_count`: its result starts with `OK`. -/
def resultIsOK (c : Check) : Bool :=
  match c.result with
  | some r => pyStartsWith r "OK"
  | none => false

/-- The check counts towards `fail_count`: its result does not start with
`OK` but starts with `FAIL`. -/
def resultIsFAIL (c : Check) : Bool :=
  match c.result with
  | some r => !pyStartsWith r "OK" && pyStartsWith r "FAIL"
  | none => false

/-!
### `detect_arch_sysctl` (source lines 60–76) and `detect_compiler` (96–111)
-/

/-- Is the first list a contiguous run of the second (Python `in` on
strings)? -/
def listIsInfix (needle : List Char) : List Char → Bool
  | [] => needle.isEmpty
  | c :: rest => needle.isPrefixOf (c :: rest) || listIsInfix needle rest

/-- Matcher for `re.search` of `^aarch64|armv8`: the alternation binds the anchor to the
first branch only, so the second branch matches anywhere in the value. -/
def sysArchMatchARM64 (value : String) : Bool :=
  pyStartsWith value "aarch64" || listIsInfix "armv8".toList value.toList

/-- Matcher for `re.search` of `^armv[3-7]`. -/
def sysArchMatchARM (value : String) : Bool :=
  match value.toList with
  | 'a' :: 'r' :: 'm' :: 'v' :: d :: _ => '3' ≤ d && d ≤ '7'
  | _ => false

/-- Matcher for `re.search` of `^i[3-6]?86`. -/
def sysArchMatchX86_32 (value : String) : Bool :=
  match value.toList with
  | 'i' :: '8' :: '6' :: _ => true
  | 'i' :: d :: '8' :: '6' :: _ => '3' ≤ d && d ≤ '6'
  | _ => false

/-- Matcher for `re.search` of `^x86_64`. -/
def sysArchMatchX86_64 (value : String) : Bool :=
  pyStartsWith value "x86_64"

/-- Function `detect_arch_sysctl`: the first `kernel.arch`-prefixed line decides;
`line.split('=', 1)[1]` raises an `IndexError` when that line has no `=`
(modelled as an error); the arch patterns are tried in the dict order
ARM64, ARM, X86_32, X86_64 and the loop `assert` on the mapping always
holds. -/
def detect_arch_sysctl : List String → Except String (Option String × String)
  | [] => Except.ok (none, "failed to detect microarchitecture in sysctl")
  | l :: ls =>
    if pyStartsWith l "kernel.arch" then
      if pyContains l '=' then
        if sysArchMatchARM64 (pyStrip (afterFirst l '=')) then
          Except.ok (some "ARM64", pyStrip (afterFirst l '='))
        else if sysArchMatchARM (pyStrip (afterFirst l '=')) then
          Except.ok (some "ARM", pyStrip (afterFirst l '='))
        else if sysArchMatchX86_32 (pyStrip (afterFirst l '=')) then
          Except.ok (some "X86_32", pyStrip (afterFirst l '='))
        else if sysArchMatchX86_64 (pyStrip (afterFirst l '=')) then
          Except.ok (some "X86_64", pyStrip (afterFirst l '='))
        else Except.ok (none, pyStrip (afterFirst l '=') ++ " is an unsupported arch")
      else Except.error "IndexError: list index out of range"
    else detect_arch_sysctl ls

/-- The last value carried by a line starting with the given prefix
(the loop overwrites on repetition), with `n` characters dropped from the
front — `line[19:-1]` and `line[21:-1]` drop the trailing newline
`readlines` keeps, which lines here do not carry. -/
def lastPrefixValue (p : String) (n : Nat) (lines : List String) : Option String :=
  lines.foldl
    (fun acc l => if pyStartsWith l p then some ((l.toList.drop n).asString) else acc)
    none

/-- Function `detect_compiler`: needs both version options; exactly one of them must
be `0`, anything else is fatal. -/
def detect_compiler (lines : List String) : Except String (Option String × String) :=
  match lastPrefixValue "CONFIG_GCC_VERSION=" 19 lines,
        lastPrefixValue "CONFIG_CLANG_VERSION=" 21 lines with
  | some g, some c =>
    if g = "0" ∧ c ≠ "0" then Except.ok (some ("CLANG " ++ c), "OK")
    else if g ≠ "0" ∧ c = "0" then Except.ok (some ("GCC " ++ g), "OK")
    else Except.error ("ERROR: invalid GCC_VERSION and CLANG_VERSION: " ++ g ++ " " ++ c)
  | _, _ => Except.ok (none, "no CONFIG_GCC_VERSION or CONFIG_CLANG_VERSION")

/-!
### The engine collaborators, modelled from the spec
-/

/-- Modelled from the spec: `populate_with_data` of the missing engine module
(§4.5) — for every check whose `source` equals the tag, record the lookup of
its name in the parsed mapping; absence is recorded as `none`, distinct from
`some ""`.  (Composite forwarding is not modelled: no embedded code path
below depends on it.) -/
def populate_with_data (checklist : List Check) (data : Dict) (tag : String) :
    List Check :=
  checklist.map (fun c =>
    if c.source = tag then { c with observed := dictGet data c.name } else c)

/-- Modelled from the spec: the kernel-version special case of §4.5 — the
version tuple is injected wholesale into every check of the kernel-version
source. -/
def populate_version (checklist : List Check) (v : List Nat) : List Check :=
  checklist.map (fun c =>
    if c.source = "version" then { c with observedVersion := some v } else c)

/-- Modelled from the spec: `override_expected_value` of the missing engine
module (§4.6) — replace `expected` of the check matching the name, by exact
name match across the whole checklist. -/
def override_expected_value (checklist : List Check) (name newVal : String) :
    List Check :=
  checklist.map (fun c => if c.name = name then { c with expected := newVal } else c)

/-- Modelled from the spec: the resolution of one leaf check (§4.2, the
literal-comparison core; sentinel and version encodings are catalog-owned,
spec §9, and no theorem below depends on the verdict text). -/
def resolveCheck (c : Check) : Check :=
  { c with result := some (match c.observed with
      | none => "FAIL: is not found"
      | some v => if v = c.expected then "OK" else "FAIL: wrong value") }

/-- Modelled from the spec: `perform_checks` of the missing engine module
(§4.7) — resolve every check of the checklist in order. -/
def perform_checks (checklist : List Check) : List Check :=
  checklist.map resolveCheck

/-- The one checklist mutation in the driver, source line 313:
`[o for o in checklist if o.name != 'CONFIG_ARCH_MMAP_RND_BITS']`,
generalized over the name. -/
def removeByName (checklist : List Check) (n : String) : List Check :=
  checklist.filter (fun c => c.name ≠ n)

/-!
### `perform_checking` (source lines 250–341)
-/

/-- The engine calls `perform_checking` makes, in source order. -/
inductive Event
  | populateData (tag : String)
  | overrideExpected (name val : String)
  | removeChecks (name : String)
  | performChecksEv
  | printChecklistEv
deriving DecidableEq, Repr

/-- The catalog builders and the cmdline normalizer live in the excluded
`checks` module; the driver is parameterized by them. -/
structure Catalog where
  addKconfigChecks : String → List Check
  addCmdlineChecks : String → List Check
  addSysctlChecks : Option String → List Check
  normalizeCmdline : String → String → String

/-- One `perform_checking` run: the report mode, the detected version, and
the contents (as line lists) of whichever files were supplied. -/
structure RunInput where
  mode : Option String
  version : Option (List Nat)
  kconfig : Option (List String)
  cmdline : Option (List String)
  sysctl : Option (List String)

def mmapName : String := "CONFIG_ARCH_MMAP_RND_BITS"

def mmapMaxName : String := "CONFIG_ARCH_MMAP_RND_BITS_MAX"

/-- Source lines 255–270: microarchitecture detection.  Without a kconfig
file the `assert(not cmdline)` / `assert(sysctl)` pair fires, and a failed
sysctl detection only warns (arch stays `None`). -/
def archStage (inp : RunInput) : Except String (Option String) :=
  match inp.kconfig with
  | some kf =>
    match detect_arch_kconfig kf with
    | (some a, _) => Except.ok (some a)
    | (none, msg) => Except.error ("ERROR: " ++ msg)
  | none =>
    match inp.cmdline with
    | some _ => Except.error "assert failed: wrong perform_checking() usage"
    | none =>
      match inp.sysctl with
      | none => Except.error "assert failed: wrong perform_checking() usage"
      | some sf =>
        match detect_arch_sysctl sf with
        | Except.ok (a, _) => Except.ok a
        | Except.error e => Except.error e

/-- Source lines 272–279: compiler detection, kconfig only; failure to
detect only prints, inconsistent version options are fatal. -/
def compilerStage (inp : RunInput) : Except String Unit :=
  match inp.kconfig with
  | some kf =>
    match detect_compiler kf with
    | Except.ok _ => Except.ok ()
    | Except.error e => Except.error e
  | none => Except.ok ()

/-- Source lines 281–293: the checklist is assembled by the catalog
builders, one block per supplied source, in kconfig, cmdline, sysctl order;
the kconfig and cmdline blocks `assert` a detected arch. -/
def catalogStage (cat : Catalog) (inp : RunInput) (arch : Option String) :
    Except String (List Check) :=
  match
    (match inp.kconfig, arch with
     | some _, some a => Except.ok (cat.addKconfigChecks a)
     | some _, none => Except.error "assert failed: arch is mandatory for the kconfig checks"
     | none, _ => Except.ok ([] : List Check)) with
  | Except.error e => Except.error e
  | Except.ok cl1 =>
    match
      (match inp.cmdline, arch with
       | some _, some a => Except.ok (cl1 ++ cat.addCmdlineChecks a)
       | some _, none => Except.error "assert failed: arch is mandatory for the cmdline checks"
       | none, _ => Except.ok cl1) with
    | Except.error e => Except.error e
    | Except.ok cl2 =>
      Except.ok (match inp.sysctl with
        | some _ => cl2 ++ cat.addSysctlChecks arch
        | none => cl2)

/-- Source lines 295–297: version population. -/
def versionPhase (inp : RunInput) (cl : List Check) : List Event × List Check :=
  match inp.version with
  | some v => ([Event.populateData "version"], populate_version cl v)
  | none => ([], cl)

/-- Source lines 299–313: kconfig parse and population, then the refinement
of the `CONFIG_ARCH_MMAP_RND_BITS` check: a truthy (present and non-empty)
`CONFIG_ARCH_MMAP_RND_BITS_MAX` overrides its expected value, anything else
removes the check from the checklist. -/
def kconfigStage (inp : RunInput) (tr : List Event) (cl : List Check) :
    Except String (List Event × List Check) :=
  match inp.kconfig with
  | none => Except.ok (tr, cl)
  | some kf =>
    match parse_kconfig_file kf with
    | Except.error e => Except.error e
    | Except.ok pk =>
      match dictGet pk mmapMaxName with
      | some v =>
        if v = "" then
          Except.ok (tr ++ [Event.populateData "kconfig", Event.removeChecks mmapName],
            removeByName (populate_with_data cl pk "kconfig") mmapName)
        else
          Except.ok
            (tr ++ [Event.populateData "kconfig", Event.overrideExpected mmapName v],
             override_expected_value (populate_with_data cl pk "kconfig") mmapName v)
      | none =>
        Except.ok (tr ++ [Event.populateData "kconfig", Event.removeChecks mmapName],
          removeByName (populate_with_data cl pk "kconfig") mmapName)

/-- Source lines 315–319: cmdline parse and population. -/
def cmdlineStage (cat : Catalog) (inp : RunInput) (tr : List Event)
    (cl : List Check) : Except String (List Event × List Check) :=
  match inp.cmdline with
  | none => Except.ok (tr, cl)
  | some cf =>
    match parse_cmdline_file cat.normalizeCmdline cf with
    | Except.error e => Except.error e
    | Except.ok pc =>
      Except.ok (tr ++ [Event.populateData "cmdline"], populate_with_data cl pc "cmdline")

/-- Source lines 321–325: sysctl parse and population. -/
def sysctlStage (inp : RunInput) (tr : List Event) (cl : List Check) :
    Except String (List Event × List Check) :=
  match inp.sysctl with
  | none => Except.ok (tr, cl)
  | some sf =>
    match parse_sysctl_file sf with
    | Except.error e => Except.error e
    | Except.ok ps =>
      Except.ok (tr ++ [Event.populateData "sysctl"], populate_with_data cl ps "sysctl")

/-- Function `perform_checking`: the stages above in source order, ending with
`perform_checks` (line 328) and `print_checklist` (line 340).  The result is
the sequence of engine calls made and the checklist as printed. -/
def perform_checking (cat : Catalog) (inp : RunInput) :
    Except String (List Event × List Check) :=
  match archStage inp with
  | Except.error e => Except.error e
  | Except.ok arch =>
    match compilerStage inp with
    | Except.error e => Except.error e
    | Except.ok _ =>
      match catalogStage cat inp arch with
      | Except.error e => Except.error e
      | Except.ok cl0 =>
        match kconfigStage inp (versionPhase inp cl0).1 (versionPhase inp cl0).2 with
        | Except.error e => Except.error e
        | Except.ok (trK, clK) =>
          match cmdlineStage cat inp trK clK with
          | Except.error e => Except.error e
          | Except.ok (trC, clC) =>
            match sysctlStage inp trC clC with
            | Except.error e => Except.error e
            | Except.ok (trS, clS) =>
              Except.ok (trS ++ [Event.performChecksEv, Event.printChecklistEv],
                perform_checks clS)

/-- Is the event a `populate_with_data` call? -/
def isPopulate : Event → Bool
  | Event.populateData _ => true
  | _ => false

/-- C2 as stated, on one run's call trace: every `override_expected_value`
call comes after every `populate_with_data` call of the run (none follows
it) and before `perform_checks` (which follows it). -/
def c2ClaimHolds (tr : List Event) : Bool :=
  tr.enum.all (fun pe =>
    match pe.2 with
    | Event.overrideExpected _ _ =>
      (tr.drop (pe.1 + 1)).all (fun f => !isPopulate f) &&
      (tr.drop (pe.1 + 1)).any (fun f => f == Event.performChecksEv)
    | _ => true)

/-- The amended C2 on one run's call trace: every `override_expected_value`
call comes after the kconfig population (which precedes it, and neither the
kconfig nor the version population follows it) and before `perform_checks`;
and the cmdline and sysctl populations, when their sources are supplied,
occur only after the override (none precedes it). -/
def c2AmendedHolds (tr : List Event) : Bool :=
  tr.enum.all (fun pe =>
    match pe.2 with
    | Event.overrideExpected _ _ =>
      (tr.take pe.1).any (fun f => f == Event.populateData "kconfig") &&
      (tr.take pe.1).all (fun f =>
        !(f == Event.populateData "cmdline" || f == Event.populateData "sysctl")) &&
      (tr.drop (pe.1 + 1)).all (fun f =>
        !(f == Event.populateData "kconfig" || f == Event.populateData "version")) &&
      (tr.drop (pe.1 + 1)).any (fun f => f == Event.performChecksEv)
    | _ => true)

/-- A one-check catalog for the concrete runs below. -/
def catMmap : Catalog :=
  { addKconfigChecks := fun _ =>
      [{ name := mmapName, source := "kconfig", expected := "32",
         observed := none, observedVersion := none, result := none }]
    addCmdlineChecks := fun _ => []
    addSysctlChecks := fun _ => []
    normalizeCmdline := fun _ v => v }

/-- A run with a kconfig and a cmdline file, in which
`CONFIG_ARCH_MMAP_RND_BITS_MAX` is present and non-empty. -/
def inpMmap : RunInput :=
  { mode := none
    version := none
    kconfig := some ["CONFIG_X86_64=y", "CONFIG_ARCH_MMAP_RND_BITS_MAX=32"]
    cmdline := some ["quiet"]
    sysctl := none }

/-- A resolved check whose result is `OK`. -/
def checkOKExample : Check :=
  { name := "CONFIG_BUG", source := "kconfig", expected := "y",
    observed := some "y", observedVersion := none, result := some "OK" }

/-- A resolved check whose result is a `FAIL`. -/
def checkFAILExample : Check :=
  { name := "CONFIG_SLAB_QUARANTINE", source := "kconfig", expected := "y",
    observed := some "n", observedVersion := none, result := some "FAIL: wrong value" }

/-- An unresolved check (`result` still `None`). -/
def checkBadExample : Check :=
  { name := "CONFIG_PAGE_POISONING", source := "kconfig", expected := "y",
    observed := none, observedVersion := none, result := none }

/-!
## Theorems
-/

theorem dictGet_insert_self (d : Dict) (k v : String) :
    dictGet (dictInsert d k v) k = some v := by
  induction d with
  | nil => simp [dictInsert, dictGet]
  | cons p t ih =>
    by_cases h : p.1 == k
    · simp [dictInsert, dictGet, h]
    · simp [dictInsert, dictGet, h, ih]

theorem dictGet_insert_ne (d : Dict) (k v k' : String) (hne : k' ≠ k) :
    dictGet (dictInsert d k v) k' = dictGet d k' := by
  induction d with
  | nil =>
    simp [dictInsert, dictGet, show ¬ ((k : String) == k') = true by
      simpa using fun hc => hne (by simpa using hc.symm)]
  | cons p t ih =>
    by_cases h : p.1 == k
    · have hpk : p.1 = k := by simpa using h
      simp [dictInsert, dictGet, h, hpk,
        show ¬ ((k : String) == k') = true by
          simpa using fun hc => hne (by simpa using hc.symm)]
    · by_cases h' : p.1 == k'
      · simp [dictInsert, dictGet, h, h']
      · simp [dictInsert, dictGet, h, h', ih]

/-- A key is present after an insert exactly when it is the inserted key or
was already present. -/
theorem dictGet_isSome_insert (d : Dict) (k v k' : String) :
    (dictGet (dictInsert d k v) k').isSome
      = (k' == k || (dictGet d k').isSome) := by
  by_cases h : k' = k
  · subst h; simp [dictGet_insert_self]
  · simp [dictGet_insert_ne d k v k' h, h]

theorem listSplitFirstEq (l : List Char) (h : l.contains '=' = true) :
    l.takeWhile (fun x => x != '=') ++ '=' :: ((l.dropWhile (fun x => x != '=')).tail) = l ∧
    (l.takeWhile (fun x => x != '=')).contains '=' = false := by
  induction l with
  | nil => simp at h
  | cons c t ih =>
    by_cases hc : c = '='
    · subst hc
      constructor
      · simp [List.takeWhile_cons, List.dropWhile_cons]
      · simp [List.takeWhile_cons]
    · have hcb : (c != '=') = true := by simpa using hc
      have hne : ¬ ('=' = c) := fun hh => hc hh.symm
      have hct : t.contains '=' = true := by
        simp only [List.contains_cons] at h
        rcases Bool.or_eq_true_iff.mp h with h' | h'
        · exact absurd (by simpa using h') hne
        · exact h'
      obtain ⟨h1, h2⟩ := ih hct
      constructor
      · rw [List.takeWhile_cons, List.dropWhile_cons]
        simp only [hcb, if_true, List.cons_append, List.cons.injEq, true_and]
        exact h1
      · rw [List.takeWhile_cons]
        simp only [hcb, if_true]
        simp [List.contains_cons, hne]
        simpa using h2

/-- A token containing `=` decomposes as `name ++ "=" ++ value` with the name
free of `=` (so the recorded value is the text after the *first* `=`). -/
theorem cmdToken_decomp (t : String) (h : pyContains t '=' = true) :
    t = cmdName t ++ "=" ++ cmdVal t ∧ pyContains (cmdName t) '=' = false := by
  obtain ⟨h1, h2⟩ := listSplitFirstEq t.toList h
  constructor
  · rw [← String.toList_inj]
    have hd : (cmdName t ++ "=" ++ cmdVal t).toList
        = t.toList.takeWhile (fun x => x != '=') ++ '=' ::
          ((t.toList.dropWhile (fun x => x != '=')).tail) := by
      simp [cmdName, cmdVal, h, beforeFirst, afterFirst, String.toList,
        String.data_append, List.asString, List.drop_one]
    rw [hd, h1]
  · unfold cmdName
    rw [if_pos h]
    simpa [pyContains, beforeFirst, String.toList, List.asString] using h2

theorem cmdline_foldl_present (normalize : String → String → String)
    (ts : List String) (d : Dict) (n : String)
    (h : (dictGet d n).isSome = true) :
    (dictGet (ts.foldl (cmdlineStep normalize) d) n).isSome = true := by
  induction ts generalizing d with
  | nil => simpa using h
  | cons t ts ih =>
    apply ih
    simp [cmdlineStep, dictGet_isSome_insert, h]

theorem cmdline_foldl_untouched (normalize : String → String → String)
    (ts : List String) (d : Dict) (n : String)
    (h : ∀ u ∈ ts, cmdName u ≠ n) :
    dictGet (ts.foldl (cmdlineStep normalize) d) n = dictGet d n := by
  induction ts generalizing d with
  | nil => rfl
  | cons t ts ih =>
    have hn : cmdName t ≠ n := h t (by simp)
    rw [List.foldl_cons, ih _ (fun u hu => h u (by simp [hu]))]
    exact dictGet_insert_ne d (cmdName t) _ n (fun he => hn he.symm)

/-- Claim C3: every cmdline token is recorded under the name before its first `=`
(or the whole token when it has none); its value is the normalized text after
the first `=`, or the normalized empty string `''` for a bare flag.  A bare
flag is therefore present in the mapping (lookup is not `none`), which is
distinguishable from the name being absent (lookup `none`).
-/
theorem claim_C3_cmdline_tokens (normalize : String → String → String)
    (tokens : List String) :
    (∀ t ∈ tokens,
        dictGet (parseCmdlineTokens normalize tokens) (cmdName t) ≠ none) ∧
    (∀ pre t post, tokens = pre ++ t :: post →
        (∀ u ∈ post, cmdName u ≠ cmdName t) →
        dictGet (parseCmdlineTokens normalize tokens) (cmdName t)
          = some (normalize (cmdName t) (cmdVal t))) ∧
    (∀ t : String, pyContains t '=' = true →
        t = cmdName t ++ "=" ++ cmdVal t ∧ pyContains (cmdName t) '=' = false) ∧
    (∀ t : String, pyContains t '=' = false → cmdName t = t ∧ cmdVal t = "") := by
  refine ⟨?_, ?_, ?_, ?_⟩
  · intro t ht
    obtain ⟨pre, post, rfl⟩ := List.append_of_mem ht
    have : (dictGet (parseCmdlineTokens normalize (pre ++ t :: post)) (cmdName t)).isSome
        = true := by
      unfold parseCmdlineTokens
      rw [List.foldl_append, List.foldl_cons]
      apply cmdline_foldl_present
      simp [cmdlineStep, dictGet_isSome_insert]
    intro hc
    rw [hc] at this
    simp at this
  · intro pre t post hts hpost
    subst hts
    unfold parseCmdlineTokens
    rw [List.foldl_append, List.foldl_cons,
      cmdline_foldl_untouched normalize post _ _ hpost]
    exact dictGet_insert_self _ _ _
  · exact fun t ht => cmdToken_decomp t ht
  · intro t ht
    simp [cmdName, cmdVal, ht]

/-- Witness for C3: the bare flag `nosmt` and the valued token
`slub_debug=FZ` in `nosmt slub_debug=FZ quiet`, under the identity
normalization. -/
theorem claim_C3_witness :
    dictGet (parseCmdlineTokens (fun _ v => v) ["nosmt", "slub_debug=FZ", "quiet"])
        (cmdName "nosmt") ≠ none ∧
    dictGet (parseCmdlineTokens (fun _ v => v) ["nosmt", "slub_debug=FZ", "quiet"])
        (cmdName "slub_debug=FZ") = some "FZ" := by
  refine ⟨(claim_C3_cmdline_tokens (fun _ v => v)
      ["nosmt", "slub_debug=FZ", "quiet"]).1 "nosmt" (by decide), ?_⟩
  have h := (claim_C3_cmdline_tokens (fun _ v => v)
      ["nosmt", "slub_debug=FZ", "quiet"]).2.1 ["nosmt"] "slub_debug=FZ" ["quiet"]
      rfl (by decide)
  simpa using h

theorem sysctl_foldl_error (ls : List String) (e : String) :
    ls.foldl sysctlStep (Except.error e) = Except.error e := by
  induction ls with
  | nil => rfl
  | cons l ls ih => simpa [sysctlStep] using ih

theorem sysctlStep_ok_cases (d d' : Dict) (l : String)
    (h : sysctlStep (Except.ok d) l = Except.ok d') :
    (sysctlLineRecord l = none ∧ d' = d) ∨
    (∃ k v, sysctlLineRecord l = some (k, v) ∧ d' = dictInsert d k v) := by
  unfold sysctlStep at h
  unfold sysctlLineRecord
  cases hc : classifySysctlLine l with
  | skip =>
    rw [hc] at h
    exact Or.inl ⟨rfl, (Except.ok.inj h).symm⟩
  | entry n v =>
    rw [hc] at h
    exact Or.inr ⟨n, v, rfl, (Except.ok.inj h).symm⟩
  | bad line =>
    rw [hc] at h
    cases h

theorem sysctl_foldl_untouched (post : List String) (n : String) :
    ∀ d m : Dict, (∀ u ∈ post, ∀ v, sysctlLineRecord u ≠ some (n, v)) →
      post.foldl sysctlStep (Except.ok d) = Except.ok m →
      dictGet m n = dictGet d n := by
  induction post with
  | nil =>
    intro d m _ hok
    simp only [List.foldl_nil] at hok
    rw [Except.ok.inj hok]
  | cons u us ih =>
    intro d m hnone hok
    rw [List.foldl_cons] at hok
    cases hstep : sysctlStep (Except.ok d) u with
    | error e =>
      rw [hstep, sysctl_foldl_error] at hok
      cases hok
    | ok d' =>
      rw [hstep] at hok
      rcases sysctlStep_ok_cases d d' u hstep with ⟨hrec, hdd⟩ | ⟨k, v, hk, hdd⟩
      · subst hdd
        exact ih d' m (fun u hu v => hnone u (by simp [hu]) v) hok
      · subst hdd
        have hkn : k ≠ n := by
          intro he
          exact hnone u (by simp) v (by rw [← he]; exact hk)
        rw [ih _ m (fun u hu v => hnone u (by simp [hu]) v) hok]
        exact dictGet_insert_ne d k v n (fun he => hkn he.symm)

/-- Claim C10: in `parse_sysctl_file`, duplicate option names are not an error:
when the same sysctl option name occurs on multiple well-formed lines, the
resulting mapping holds the stripped value of the last occurrence in file
order (the last-occurrence line may be preceded by arbitrary earlier
occurrences inside `pre`).
-/
theorem claim_C10_sysctl_last_value_wins
    (pre : List String) (l : String) (post : List String)
    (m : Dict) (n v : String)
    (hl : sysctlLineRecord l = some (n, v))
    (hpost : ∀ u ∈ post, ∀ v', sysctlLineRecord u ≠ some (n, v'))
    (hok : parse_sysctl_file (pre ++ l :: post) = Except.ok m) :
    dictGet m n = some v := by
  unfold parse_sysctl_file at hok
  rw [if_neg (by simp)] at hok
  rw [List.foldl_append, List.foldl_cons] at hok
  cases hpre : pre.foldl sysctlStep (Except.ok []) with
  | error e =>
    rw [hpre, show sysctlStep (Except.error e) l = Except.error e from rfl,
      sysctl_foldl_error] at hok
    cases hok
  | ok d =>
    rw [hpre] at hok
    have hstep : sysctlStep (Except.ok d) l = Except.ok (dictInsert d n v) := by
      unfold sysctlLineRecord at hl
      cases hc : classifySysctlLine l with
      | skip => rw [hc] at hl; cases hl
      | bad line => rw [hc] at hl; cases hl
      | entry k v' =>
        rw [hc] at hl
        simp only [Option.some.injEq, Prod.mk.injEq] at hl
        simp [sysctlStep, hc, hl.1, hl.2]
    rw [hstep] at hok
    rw [sysctl_foldl_untouched post n _ m hpost hok]
    exact dictGet_insert_self d n v

/-- Witness for C10: `kernel.kptr_restrict` appears twice; the parsed mapping
holds the value of the last occurrence. -/
theorem claim_C10_witness :
    dictGet [("kernel.kptr_restrict", "2"), ("fs.suid_dumpable", "0")]
        "kernel.kptr_restrict" = some "2" := by
  apply claim_C10_sysctl_last_value_wins ["kernel.kptr_restrict = 1"]
      "kernel.kptr_restrict = 2" ["fs.suid_dumpable = 0"] _ "kernel.kptr_restrict" "2"
  · rfl
  · intro u hu v' hc
    rw [List.mem_singleton] at hu
    subst hu
    rw [show sysctlLineRecord "fs.suid_dumpable = 0"
        = some ("fs.suid_dumpable", "0") from rfl] at hc
    simp at hc
  · rfl

theorem kconfig_foldl_error (ls : List String) (e : String) :
    ls.foldl kconfigStep (Except.error e) = Except.error e := by
  induction ls with
  | nil => rfl
  | cons l ls ih => simpa [kconfigStep] using ih

/-- Claim C5: `parse_kconfig_file` rejects malformed input rather than recording
it.  With `pre` already parsed into `d`, it terminates with an error when the
next line, stripped, (a) is non-empty, is not a comment, and matches neither
the enabled nor the disabled pattern; (b) is an enabled option whose value is
the literal `is not set`; (c)/(d) is an enabled/disabled option whose name
was already recorded (duplicate Kconfig options are fatal).
-/
theorem claim_C5_kconfig_rejects_malformed
    (pre : List String) (l : String) (post : List String) (d : Dict)
    (hpre : parse_kconfig_file pre = Except.ok d) :
    ((pyStrip l ≠ "" ∧ pyStartsWith (pyStrip l) "#" = false ∧
        kconfigOnMatch (pyStrip l) = false ∧ kconfigOffMatch (pyStrip l) = false) →
      ∃ e, parse_kconfig_file (pre ++ l :: post) = Except.error e) ∧
    ((kconfigOnMatch (pyStrip l) = true ∧ kconfigOnValue (pyStrip l) = "is not set") →
      ∃ e, parse_kconfig_file (pre ++ l :: post) = Except.error e) ∧
    ((kconfigOnMatch (pyStrip l) = true ∧ dictMem d (kconfigOnName (pyStrip l)) = true) →
      ∃ e, parse_kconfig_file (pre ++ l :: post) = Except.error e) ∧
    ((kconfigOffMatch (pyStrip l) = true ∧ dictMem d (kconfigOffName (pyStrip l)) = true) →
      ∃ e, parse_kconfig_file (pre ++ l :: post) = Except.error e) := by
  have key : ∀ e, kconfigStep (Except.ok d) l = Except.error e →
      parse_kconfig_file (pre ++ l :: post) = Except.error e := by
    intro e he
    unfold parse_kconfig_file at hpre ⊢
    rw [List.foldl_append, List.foldl_cons, hpre, he, kconfig_foldl_error]
  have honoff : kconfigOnMatch (pyStrip l) = true → kconfigOffMatch (pyStrip l) = false := by
    intro hon
    by_contra hoff
    rw [Bool.not_eq_false] at hoff
    simp only [kconfigOnMatch, Bool.and_eq_true] at hon
    simp only [kconfigOffMatch, Bool.and_eq_true] at hoff
    have h1 : "CONFIG_".toList.isPrefixOf (pyStrip l).toList = true := hon.1
    have h2 : "# CONFIG_".toList.isPrefixOf (pyStrip l).toList = true := hoff.1.1.1
    rw [List.isPrefixOf_iff_prefix] at h1 h2
    obtain ⟨t1, ht1⟩ := h1
    obtain ⟨t2, ht2⟩ := h2
    rw [← ht1] at ht2
    simp at ht2
  refine ⟨?_, ?_, ?_, ?_⟩
  · rintro ⟨h1, h2, h3, h4⟩
    refine ⟨"ERROR: unexpected line in Kconfig file: " ++ pyStrip l, key _ ?_⟩
    simp [kconfigStep, classifyKconfigLine, h1, h2, h3, h4]
  · rintro ⟨h1, h2⟩
    refine ⟨"ERROR: bad enabled Kconfig option " ++ pyStrip l, key _ ?_⟩
    simp [kconfigStep, classifyKconfigLine, h1, h2]
  · rintro ⟨h1, h2⟩
    by_cases hv : kconfigOnValue (pyStrip l) = "is not set"
    · refine ⟨"ERROR: bad enabled Kconfig option " ++ pyStrip l, key _ ?_⟩
      simp [kconfigStep, classifyKconfigLine, h1, hv]
    · refine ⟨"ERROR: Kconfig option " ++ pyStrip l ++ " is found multiple times", key _ ?_⟩
      simp [kconfigStep, classifyKconfigLine, h1, h2, hv]
  · rintro ⟨h1, h2⟩
    have hono : kconfigOnMatch (pyStrip l) = false := by
      cases hq : kconfigOnMatch (pyStrip l) with
      | false => rfl
      | true => rw [honoff hq] at h1; cases h1
    refine ⟨"ERROR: Kconfig option " ++ pyStrip l ++ " is found multiple times", key _ ?_⟩
    simp [kconfigStep, classifyKconfigLine, hono, h1, h2]

/-- Witness for C5: a garbage line, a `CONFIG_FOO=is not set` line and a
duplicate of an already-recorded option each abort the parse. -/
theorem claim_C5_witness :
    (∃ e, parse_kconfig_file ["CONFIG_FOO=bar", "garbage line"] = Except.error e) ∧
    (∃ e, parse_kconfig_file ["CONFIG_FOO=bar", "CONFIG_BAZ=is not set"] = Except.error e) ∧
    (∃ e, parse_kconfig_file ["CONFIG_FOO=bar", "CONFIG_FOO=y"] = Except.error e) ∧
    (∃ e, parse_kconfig_file ["CONFIG_FOO=bar", "# CONFIG_FOO is not set"] = Except.error e) := by
  refine ⟨?_, ?_, ?_, ?_⟩
  · exact (claim_C5_kconfig_rejects_malformed ["CONFIG_FOO=bar"] "garbage line" []
      [("CONFIG_FOO", "bar")] rfl).1 (by refine ⟨by decide, rfl, rfl, rfl⟩)
  · exact (claim_C5_kconfig_rejects_malformed ["CONFIG_FOO=bar"] "CONFIG_BAZ=is not set" []
      [("CONFIG_FOO", "bar")] rfl).2.1 ⟨rfl, rfl⟩
  · exact (claim_C5_kconfig_rejects_malformed ["CONFIG_FOO=bar"] "CONFIG_FOO=y" []
      [("CONFIG_FOO", "bar")] rfl).2.2.1 ⟨rfl, rfl⟩
  · exact (claim_C5_kconfig_rejects_malformed ["CONFIG_FOO=bar"] "# CONFIG_FOO is not set" []
      [("CONFIG_FOO", "bar")] rfl).2.2.2 ⟨rfl, rfl⟩

theorem detect_kernel_version_cons (u : String) (rest : List String) :
    detect_kernel_version (u :: rest)
      = if ver_line_match u then processVerLine u else detect_kernel_version rest :=
  rfl

theorem detect_kernel_version_first_match (lines : List String) :
    (∀ l, lines.find? ver_line_match = some l →
      detect_kernel_version lines = processVerLine l) ∧
    (lines.find? ver_line_match = none →
      detect_kernel_version lines = KVerResult.nofound "no kernel version detected") := by
  induction lines with
  | nil => exact ⟨fun l h => (by cases h), fun _ => rfl⟩
  | cons u rest ih =>
    cases hm : ver_line_match u with
    | true =>
      refine ⟨fun l h => ?_, fun h => ?_⟩
      · rw [List.find?_cons_of_pos _ hm] at h
        rw [detect_kernel_version_cons, if_pos hm, Option.some.inj h]
      · rw [List.find?_cons_of_pos _ hm] at h
        cases h
    | false =>
      refine ⟨fun l h => ?_, fun h => ?_⟩
      · rw [List.find?_cons_of_neg _ (by simp [hm])] at h
        rw [detect_kernel_version_cons, if_neg (by simp [hm])]
        exact ih.1 l h
      · rw [List.find?_cons_of_neg _ (by simp [hm])] at h
        rw [detect_kernel_version_cons, if_neg (by simp [hm])]
        exact ih.2 h

theorem processVerLine_cases (l : String) :
    (thirdField l = none → processVerLine l = KVerResult.crash) ∧
    (∀ p2, thirdField l = some p2 →
      ((3 ≤ (verComponents p2).length ∧ (verComponents p2).all isDecimalStr = true) →
        processVerLine l = KVerResult.found ((verComponents p2).map digitsToNat)) ∧
      (¬(3 ≤ (verComponents p2).length ∧ (verComponents p2).all isDecimalStr = true) →
        processVerLine l
          = KVerResult.nofound ("failed to parse the version \"" ++ p2 ++ "\""))) := by
  unfold processVerLine thirdField
  cases hs : pySplitWS l with
  | nil => exact ⟨fun _ => rfl, fun p2 hp2 => by cases hp2⟩
  | cons a t =>
    cases t with
    | nil => exact ⟨fun _ => rfl, fun p2 hp2 => by cases hp2⟩
    | cons b t2 =>
      cases t2 with
      | nil => exact ⟨fun _ => rfl, fun p2 hp2 => by cases hp2⟩
      | cons c rest =>
        refine ⟨fun h => by simp at h, fun p2 hp2 => ?_⟩
        have hc : p2 = c := by simpa using hp2.symm
        subst hc
        exact ⟨fun hcond => if_pos hcond, fun hcond => if_neg hcond⟩

/-- Counterexample to claim C4 as stated: the outcome is decided by the *first*
line matching the version pattern, not by the existence of *any* matching
line with a parseable third field.  Here the first matching line fails to
parse while the second would parse, yet the function returns `None`.
-/
theorem claim_C4_counterexample :
    detect_kernel_version ["Linux version foo", "Linux version 5.10.1"]
      = KVerResult.nofound ("failed to parse the version \"foo\"") ∧
    (["Linux version foo", "Linux version 5.10.1"].any
      (fun l => ver_line_match l &&
        (match processVerLine l with
         | KVerResult.found _ => true
         | _ => false))) = true := by
  exact ⟨by decide, by decide⟩

/-- Claim C4 (amended): `detect_kernel_version` returns a version tuple if and only
if the *first* line matching the version pattern has a third
whitespace-separated field that, truncated at the first `-`, splits on `.`
into at least three all-decimal components; the tuple is exactly those
components as integers (hence has at least three components).  If no line
matches, it returns `None` with "no kernel version detected"; if the first
matching line has a third field that fails to parse, `None` with a
failed-to-parse message naming that field; a matching line with fewer than
three whitespace fields raises an unhandled `IndexError`.
-/
theorem claim_C4_amended (lines : List String) :
    ((∀ x ∈ lines, ver_line_match x = false) →
      detect_kernel_version lines = KVerResult.nofound "no kernel version detected") ∧
    (∀ l, lines.find? ver_line_match = some l →
      (thirdField l = none → detect_kernel_version lines = KVerResult.crash) ∧
      (∀ p2, thirdField l = some p2 →
        ((3 ≤ (verComponents p2).length ∧ (verComponents p2).all isDecimalStr = true) →
          detect_kernel_version lines
              = KVerResult.found ((verComponents p2).map digitsToNat) ∧
            3 ≤ ((verComponents p2).map digitsToNat).length) ∧
        (¬(3 ≤ (verComponents p2).length ∧ (verComponents p2).all isDecimalStr = true) →
          detect_kernel_version lines
            = KVerResult.nofound ("failed to parse the version \"" ++ p2 ++ "\"")))) := by
  obtain ⟨hsome, hnone⟩ := detect_kernel_version_first_match lines
  constructor
  · intro hall
    apply hnone
    rw [List.find?_eq_none]
    intro x hx
    simp [hall x hx]
  · intro l hl
    have hd := hsome l hl
    obtain ⟨hc1, hc2⟩ := processVerLine_cases l
    refine ⟨fun h => by rw [hd]; exact hc1 h, fun p2 hp2 => ?_⟩
    refine ⟨fun hcond => ⟨by rw [hd]; exact (hc2 p2 hp2).1 hcond, ?_⟩,
            fun hcond => by rw [hd]; exact (hc2 p2 hp2).2 hcond⟩
    simpa using hcond.1

/-- Witness for the amended C4: `Linux version 6.1.2-rc1` yields `(6, 1, 2)`. -/
theorem claim_C4_witness :
    detect_kernel_version ["Linux version 6.1.2-rc1"] = KVerResult.found [6, 1, 2] := by
  have h := (((claim_C4_amended ["Linux version 6.1.2-rc1"]).2
      "Linux version 6.1.2-rc1" (by decide)).2 "6.1.2-rc1" (by decide)).1
      ⟨by decide, by decide⟩
  exact h.1.trans (by decide)

theorem detectArchGo_cons (acc : Option String) (u : String) (ls : List String) :
    detectArchGo acc (u :: ls)
      = match lineArchOption u with
        | some o =>
          if SUPPORTED_ARCHS.contains o then
            match acc with
            | none => detectArchGo (some o) ls
            | some _ => (none, "detected more than one microarchitecture in kconfig")
          else detectArchGo acc ls
        | none => detectArchGo acc ls :=
  rfl

theorem supportedArchLine_eq_true (u : String) (hu : supportedArchLine u = true) :
    ∃ o, lineArchOption u = some o ∧ SUPPORTED_ARCHS.contains o = true := by
  unfold supportedArchLine at hu
  cases ho : lineArchOption u with
  | none => rw [ho] at hu; cases hu
  | some o => rw [ho] at hu; exact ⟨o, rfl, hu⟩

theorem supportedArchLine_eq_false (u o : String)
    (hu : supportedArchLine u = false) (ho : lineArchOption u = some o) :
    SUPPORTED_ARCHS.contains o = false := by
  unfold supportedArchLine at hu
  rw [ho] at hu
  exact hu

theorem detectArchGo_skip (u : String) (ls : List String)
    (hu : supportedArchLine u = false) (acc : Option String) :
    detectArchGo acc (u :: ls) = detectArchGo acc ls := by
  rw [detectArchGo_cons]
  cases ho : lineArchOption u with
  | none => rfl
  | some o =>
    have hc := supportedArchLine_eq_false u o hu ho
    exact if_neg (fun hcon => by rw [hcon] at hc; cases hc)

theorem detectArchGo_hit_none (u : String) (ls : List String) (o : String)
    (ho : lineArchOption u = some o) (hc : SUPPORTED_ARCHS.contains o = true) :
    detectArchGo none (u :: ls) = detectArchGo (some o) ls := by
  rw [detectArchGo_cons, ho]
  exact if_pos hc

theorem detectArchGo_hit_some (u : String) (ls : List String) (o a : String)
    (ho : lineArchOption u = some o) (hc : SUPPORTED_ARCHS.contains o = true) :
    detectArchGo (some a) (u :: ls)
      = (none, "detected more than one microarchitecture in kconfig") := by
  rw [detectArchGo_cons, ho]
  exact if_pos hc

theorem detectArchGo_no_supported (ls : List String)
    (h : ∀ l ∈ ls, supportedArchLine l = false) :
    ∀ acc : Option String,
      detectArchGo acc ls
        = (match acc with
           | none => (none, "failed to detect microarchitecture in kconfig")
           | some a => (some a, "OK")) := by
  induction ls with
  | nil => intro acc; rfl
  | cons u rest ih =>
    intro acc
    rw [detectArchGo_skip u rest (h u (by simp)) acc]
    exact ih (fun l hl => h l (by simp [hl])) acc

theorem detectArchGo_second_hit (ls : List String) :
    (∃ l ∈ ls, supportedArchLine l = true) → ∀ a : String,
      detectArchGo (some a) ls
        = (none, "detected more than one microarchitecture in kconfig") := by
  induction ls with
  | nil => rintro ⟨l, hl, _⟩; cases hl
  | cons u rest ih =>
    rintro ⟨l, hl, hsup⟩ a
    cases hu : supportedArchLine u with
    | true =>
      obtain ⟨o, ho, hc⟩ := supportedArchLine_eq_true u hu
      exact detectArchGo_hit_some u rest o a ho hc
    | false =>
      have hlr : l ∈ rest := by
        rcases List.mem_cons.mp hl with rfl | hr
        · rw [hu] at hsup; cases hsup
        · exact hr
      rw [detectArchGo_skip u rest hu (some a)]
      exact ih ⟨l, hlr, hsup⟩ a

/-- Claim C9: `detect_arch_kconfig` returns an architecture iff exactly one line of
the file carries a supported-architecture option (`re.search` of
`CONFIG_([A-Z0-9_]+)=y$` capturing one of `X86_64`, `X86_32`, `ARM64`,
`ARM`); the result is that line's architecture with message `OK`.  With no
such line it returns `None` / "failed to detect microarchitecture in
kconfig"; with two or more such lines (even repetitions of the same
architecture) it returns `None` / "detected more than one microarchitecture
in kconfig".
-/
theorem detect_arch_count0 (lines : List String)
    (h : lines.countP supportedArchLine = 0) :
    detect_arch_kconfig lines
      = (none, "failed to detect microarchitecture in kconfig") := by
  rw [List.countP_eq_zero] at h
  exact detectArchGo_no_supported lines (fun l hl => by simpa using h l hl) none

theorem detect_arch_count1 (lines : List String) :
    ∀ l, lines.countP supportedArchLine = 1 →
      lines.find? supportedArchLine = some l →
      detect_arch_kconfig lines = (lineArchOption l, "OK") := by
  unfold detect_arch_kconfig
  induction lines with
  | nil => intro l _ hf; cases hf
  | cons u rest ih =>
    intro l hcount hf
    cases hu : supportedArchLine u with
    | true =>
      rw [List.find?_cons_of_pos _ hu] at hf
      have hl : l = u := (Option.some.inj hf).symm
      subst hl
      have hrest : rest.countP supportedArchLine = 0 := by
        rw [List.countP_cons_of_pos _ _ hu] at hcount
        omega
      rw [List.countP_eq_zero] at hrest
      obtain ⟨o, ho, hc⟩ := supportedArchLine_eq_true l hu
      rw [detectArchGo_hit_none l rest o ho hc,
        detectArchGo_no_supported rest (fun x hx => by simpa using hrest x hx)
          (some o), ho]
    | false =>
      rw [List.find?_cons_of_neg _ (by simp [hu])] at hf
      have hcount2 : rest.countP supportedArchLine = 1 := by
        rw [List.countP_cons_of_neg _ _ (by simp [hu])] at hcount
        exact hcount
      rw [detectArchGo_skip u rest hu none]
      exact ih l hcount2 hf

theorem detect_arch_count2 (lines : List String) :
    2 ≤ lines.countP supportedArchLine →
      detect_arch_kconfig lines
        = (none, "detected more than one microarchitecture in kconfig") := by
  unfold detect_arch_kconfig
  induction lines with
  | nil => intro h; simp at h
  | cons u rest ih =>
    intro h
    cases hu : supportedArchLine u with
    | true =>
      have hrest : 1 ≤ rest.countP supportedArchLine := by
        rw [List.countP_cons_of_pos _ _ hu] at h
        omega
      have hex : ∃ l ∈ rest, supportedArchLine l = true := by
        by_contra hno
        push_neg at hno
        have : rest.countP supportedArchLine = 0 := by
          rw [List.countP_eq_zero]
          intro x hx
          simpa using hno x hx
        omega
      obtain ⟨o, ho, hc⟩ := supportedArchLine_eq_true u hu
      rw [detectArchGo_hit_none u rest o ho hc]
      exact detectArchGo_second_hit rest hex o
    | false =>
      have h2 : 2 ≤ rest.countP supportedArchLine := by
        rw [List.countP_cons_of_neg _ _ (by simp [hu])] at h
        exact h
      rw [detectArchGo_skip u rest hu none]
      exact ih h2

/-- Claim C9: `detect_arch_kconfig` returns an architecture iff exactly one line of
the file carries a supported-architecture option (`re.search` of
`CONFIG_([A-Z0-9_]+)=y$` capturing one of `X86_64`, `X86_32`, `ARM64`,
`ARM`); the result is that line's architecture with message `OK`.  With no
such line it returns `None` / "failed to detect microarchitecture in
kconfig"; with two or more such lines (even repetitions of the same
architecture) it returns `None` / "detected more than one microarchitecture
in kconfig".
-/
theorem claim_C9_detect_arch_kconfig (lines : List String) :
    (lines.countP supportedArchLine = 0 →
      detect_arch_kconfig lines
        = (none, "failed to detect microarchitecture in kconfig")) ∧
    (∀ l, lines.countP supportedArchLine = 1 →
      lines.find? supportedArchLine = some l →
      detect_arch_kconfig lines = (lineArchOption l, "OK")) ∧
    (2 ≤ lines.countP supportedArchLine →
      detect_arch_kconfig lines
        = (none, "detected more than one microarchitecture in kconfig")) ∧
    ((detect_arch_kconfig lines).1.isSome = true ↔
      lines.countP supportedArchLine = 1) := by
  refine ⟨detect_arch_count0 lines, detect_arch_count1 lines,
    detect_arch_count2 lines, ?_, ?_⟩
  · intro hs
    rcases Nat.lt_or_ge (lines.countP supportedArchLine) 2 with hlt | hge
    · interval_cases h : lines.countP supportedArchLine
      · rw [detect_arch_count0 lines h] at hs
        simp at hs
      · rfl
    · rw [detect_arch_count2 lines hge] at hs
      simp at hs
  · intro h1
    have hfind : (lines.find? supportedArchLine).isSome = true := by
      rw [List.find?_isSome]
      by_contra hno
      push_neg at hno
      have : lines.countP supportedArchLine = 0 := by
        rw [List.countP_eq_zero]
        intro x hx
        have hxn := hno x hx
        simp only [Bool.not_eq_true] at hxn ⊢
        simp [hxn]
      omega
    obtain ⟨l, hl⟩ := Option.isSome_iff_exists.mp hfind
    rw [detect_arch_count1 lines l h1 hl]
    have hsup := List.find?_some hl
    obtain ⟨o, ho, hc⟩ := supportedArchLine_eq_true l hsup
    rw [ho]
    rfl

/-- Witness for C9: one supported line among unrelated ones. -/
theorem claim_C9_witness :
    detect_arch_kconfig ["CONFIG_FOO=y", "CONFIG_ARM64=y", "CONFIG_BAR=m"]
      = (some "ARM64", "OK") := by
  have h := (claim_C9_detect_arch_kconfig
      ["CONFIG_FOO=y", "CONFIG_ARM64=y", "CONFIG_BAR=m"]).2.1
      "CONFIG_ARM64=y" (by decide) (by decide)
  exact h.trans (by decide)

theorem printStep_bad (mode : Option String) (st : Nat × Nat × List Check)
    (c : Check) (h : badResult c = true) :
    ∃ e, printStep mode true st c = Except.error e := by
  unfold printStep
  unfold badResult at h
  cases hr : c.result with
  | none => exact ⟨_, rfl⟩
  | some r =>
    rw [hr] at h
    by_cases hempty : r = ""
    · exact ⟨"assert failed: unexpected empty result of " ++ c.name ++ " check",
        by simp [hempty]⟩
    · rcases Bool.or_eq_true_iff.mp h with h1 | h2
      · exact absurd (by simpa using h1) hempty
      · have hok : pyStartsWith r "OK" = false := by
          rcases Bool.and_eq_true_iff.mp h2 with ⟨ha, _⟩
          simpa using ha
        have hfail : pyStartsWith r "FAIL" = false := by
          rcases Bool.and_eq_true_iff.mp h2 with ⟨_, hb⟩
          simpa using hb
        exact ⟨"assert failed: unexpected result of " ++ c.name ++ " check",
          by simp [hempty, hok, hfail]⟩

theorem printStep_good (mode : Option String) (st : Nat × Nat × List Check)
    (c : Check) (h : badResult c = false) :
    printStep mode true st c
      = Except.ok (st.1 + (if resultIsOK c then 1 else 0),
          st.2.1 + (if resultIsFAIL c then 1 else 0),
          st.2.2 ++ (if printKeep mode true c then [c] else [])) := by
  unfold printStep resultIsOK resultIsFAIL printKeep
  unfold badResult at h
  cases hr : c.result with
  | none => rw [hr] at h; cases h
  | some r =>
    rw [hr] at h
    have hempty : ¬ (r = "") := by
      intro he
      rw [he] at h
      simp at h
    by_cases hok : pyStartsWith r "OK" = true
    · by_cases hmode : mode = some "show_fail"
      · simp [hempty, hok, hmode]
      · simp [hempty, hok, hmode]
    · have hfail : pyStartsWith r "FAIL" = true := by
        rcases Bool.or_eq_false_iff.mp h with ⟨_, h2⟩
        rcases Bool.and_eq_false_iff.mp h2 with h3 | h3
        · exact absurd (by simpa using h3) hok
        · simpa using h3
      by_cases hmode : mode = some "show_ok"
      · simp [hempty, hok, hfail, hmode]
      · simp [hempty, hok, hfail, hmode]

theorem printStep_noresults (mode : Option String) (st : Nat × Nat × List Check)
    (c : Check) :
    printStep mode false st c = Except.ok (st.1, st.2.1, st.2.2 ++ [c]) :=
  rfl

theorem printFold_invariant (mode : Option String) (cl : List Check) :
    ∀ (a b : Nat) (t : List Check) (ok fail : Nat) (tbl : List Check),
      printFold mode true (a, b, t) cl = Except.ok (ok, fail, tbl) →
      (∀ c ∈ cl, badResult c = false) ∧
      ok = a + cl.countP resultIsOK ∧
      fail = b + cl.countP resultIsFAIL ∧
      tbl = t ++ cl.filter (printKeep mode true) := by
  induction cl with
  | nil =>
    intro a b t ok fail tbl h
    simp only [printFold, Except.ok.injEq, Prod.mk.injEq] at h
    obtain ⟨ha, hb, ht⟩ := h
    subst ha; subst hb; subst ht
    simp
  | cons c cs ih =>
    intro a b t ok fail tbl h
    cases hbad : badResult c with
    | true =>
      obtain ⟨e, he⟩ := printStep_bad mode (a, b, t) c hbad
      unfold printFold at h
      rw [he] at h
      cases h
    | false =>
      unfold printFold at h
      rw [printStep_good mode (a, b, t) c hbad] at h
      obtain ⟨hall, hok, hfail, htbl⟩ := ih _ _ _ _ _ _ h
      refine ⟨?_, ?_, ?_, ?_⟩
      · intro x hx
        rcases List.mem_cons.mp hx with rfl | hxs
        · exact hbad
        · exact hall x hxs
      · rw [hok, List.countP_cons]
        cases hco : resultIsOK c <;> simp [hco] <;> omega
      · rw [hfail, List.countP_cons]
        cases hcf : resultIsFAIL c <;> simp [hcf] <;> omega
      · rw [htbl, List.filter_cons]
        cases hk : printKeep mode true c <;> simp [hk]

theorem printFold_bad (mode : Option String) (cl : List Check) :
    ∀ st : Nat × Nat × List Check, (∃ c ∈ cl, badResult c = true) →
      ∃ e, printFold mode true st cl = Except.error e := by
  induction cl with
  | nil =>
    rintro st ⟨c, hc, _⟩
    cases hc
  | cons u us ih =>
    rintro st ⟨c, hc, hbad⟩
    cases hbu : badResult u with
    | true =>
      obtain ⟨e, he⟩ := printStep_bad mode st u hbu
      exact ⟨e, by unfold printFold; rw [he]⟩
    | false =>
      have hcu : c ∈ us := by
        rcases List.mem_cons.mp hc with rfl | hm
        · rw [hbu] at hbad; cases hbad
        · exact hm
      obtain ⟨e, he⟩ := ih _ ⟨c, hcu, hbad⟩
      refine ⟨e, ?_⟩
      unfold printFold
      rw [printStep_good mode st u hbu]
      exact he

theorem printFold_noresults (mode : Option String) (cl : List Check) :
    ∀ (a b : Nat) (t : List Check),
      printFold mode false (a, b, t) cl = Except.ok (a, b, t ++ cl) := by
  induction cl with
  | nil => intro a b t; simp [printFold]
  | cons c cs ih =>
    intro a b t
    have hstep : printFold mode false (a, b, t) (c :: cs)
        = printFold mode false (a, b, t ++ [c]) cs := rfl
    rw [hstep, ih]
    simp

theorem goodResult_ok_or_fail (c : Check) (h : badResult c = false) :
    resultIsOK c = true ∨ resultIsFAIL c = true := by
  unfold badResult at h
  unfold resultIsOK resultIsFAIL
  cases hr : c.result with
  | none => rw [hr] at h; cases h
  | some r =>
    rw [hr] at h
    cases hok : pyStartsWith r "OK"
    · rcases Bool.or_eq_false_iff.mp h with ⟨_, h2⟩
      rcases Bool.and_eq_false_iff.mp h2 with h3 | h3
      · exact absurd (by simpa using h3) (by simp [hok])
      · right
        show (!pyStartsWith r "OK" && pyStartsWith r "FAIL") = true
        simp only [hok, Bool.not_false, Bool.true_and]
        simpa using h3
    · exact Or.inl hok

theorem count_ok_fail_length (cl : List Check) (h : ∀ c ∈ cl, badResult c = false) :
    cl.countP resultIsOK + cl.countP resultIsFAIL = cl.length := by
  induction cl with
  | nil => rfl
  | cons c cs ih =>
    have hc := h c (by simp)
    have hcs := ih (fun x hx => h x (by simp [hx]))
    rw [List.countP_cons, List.countP_cons, List.length_cons]
    have hone : (if resultIsOK c then 1 else 0) + (if resultIsFAIL c then 1 else 0) = 1 := by
      rcases goodResult_ok_or_fail c hc with hk | hk
      · have hf : resultIsFAIL c = false := by
          unfold resultIsOK at hk
          unfold resultIsFAIL
          cases hr : c.result with
          | none => rfl
          | some r =>
            rw [hr] at hk
            have hk2 : pyStartsWith r "OK" = true := hk
            show (!pyStartsWith r "OK" && pyStartsWith r "FAIL") = false
            rw [hk2]
            simp
        simp [hk, hf]
      · have ho : resultIsOK c = false := by
          unfold resultIsFAIL at hk
          unfold resultIsOK
          cases hr : c.result with
          | none => rfl
          | some r =>
            rw [hr] at hk
            have hk2 : (!pyStartsWith r "OK" && pyStartsWith r "FAIL") = true := hk
            rcases Bool.and_eq_true_iff.mp hk2 with ⟨h1, _⟩
            show pyStartsWith r "OK" = false
            simpa using h1
        simp [hk, ho]
    omega

theorem printKeep_show_fail (c : Check)
    (h : printKeep (some "show_fail") true c = true) : resultIsOK c = false := by
  unfold printKeep at h
  unfold resultIsOK
  cases hr : c.result with
  | none => rfl
  | some r =>
    rw [hr] at h
    have h2 : (if pyStartsWith r "OK" = true
        then !((some "show_fail" : Option String) == some "show_fail")
        else !((some "show_fail" : Option String) == some "show_ok")) = true := h
    cases hok : pyStartsWith r "OK"
    · show pyStartsWith r "OK" = false
      exact hok
    · rw [hok] at h2
      simp at h2

theorem printKeep_show_ok (c : Check)
    (h : printKeep (some "show_ok") true c = true) : resultIsOK c = true := by
  unfold printKeep at h
  unfold resultIsOK
  cases hr : c.result with
  | none => rw [hr] at h; simp at h
  | some r =>
    rw [hr] at h
    have h2 : (if pyStartsWith r "OK" = true
        then !((some "show_ok" : Option String) == some "show_fail")
        else !((some "show_ok" : Option String) == some "show_ok")) = true := h
    cases hok : pyStartsWith r "OK"
    · rw [hok] at h2
      simp at h2
    · show pyStartsWith r "OK" = true
      exact hok

/-- Claim C6: for `print_checklist` with results (off the JSON path): every check
printed or counted has a result starting with `OK` or `FAIL`; `show_fail`
suppresses the printing of every OK check and `show_ok` of every FAIL
check; and the final score line reports `ok_count`/`fail_count` tallied over
every check in the checklist, with their sum equal to the checklist length.
-/
theorem claim_C6_print_checklist_score (mode : Option String) (cl : List Check)
    (out : PrintOut) (hj : mode ≠ some "json")
    (h : print_checklist mode cl true = Except.ok out) :
    (∀ c ∈ cl, badResult c = false) ∧
    (∀ c ∈ out.table, resultIsOK c = true ∨ resultIsFAIL c = true) ∧
    (mode = some "show_fail" → ∀ c ∈ out.table, resultIsOK c = false) ∧
    (mode = some "show_ok" → ∀ c ∈ out.table, resultIsOK c = true) ∧
    out.score = some (out.okCount, out.failCount) ∧
    out.okCount = cl.countP resultIsOK ∧
    out.failCount = cl.countP resultIsFAIL ∧
    out.okCount + out.failCount = cl.length := by
  unfold print_checklist at h
  rw [if_neg hj] at h
  cases hfold : printFold mode true (0, 0, []) cl with
  | error e => rw [hfold] at h; cases h
  | ok st =>
    obtain ⟨ok, fail, tbl⟩ := st
    rw [hfold] at h
    have hout := (Except.ok.inj h).symm
    subst hout
    obtain ⟨hall, hok, hfail, htbl⟩ := printFold_invariant mode cl 0 0 [] ok fail tbl hfold
    simp only [List.nil_append] at htbl
    refine ⟨hall, ?_, ?_, ?_, rfl, by simpa using hok, by simpa using hfail, ?_⟩
    · intro c hc
      rw [htbl] at hc
      exact goodResult_ok_or_fail c (hall c (List.mem_of_mem_filter hc))
    · intro hm c hc
      subst hm
      rw [htbl] at hc
      exact printKeep_show_fail c (List.of_mem_filter hc)
    · intro hm c hc
      subst hm
      rw [htbl] at hc
      exact printKeep_show_ok c (List.of_mem_filter hc)
    · have := count_ok_fail_length cl hall
      simp only at hok hfail ⊢
      omega

/-- Witness for C6: one OK and one FAIL check under `show_fail`; the OK row
is suppressed but both counters appear in the score. -/
theorem claim_C6_witness :
    print_checklist (some "show_fail") [checkOKExample, checkFAILExample] true
        = Except.ok ⟨none, [checkFAILExample], 1, 1, some (1, 1)⟩ ∧
    (1 : Nat) + 1 = ([checkOKExample, checkFAILExample] : List Check).length := by
  refine ⟨rfl, ?_⟩
  have h := claim_C6_print_checklist_score (some "show_fail")
      [checkOKExample, checkFAILExample] ⟨none, [checkFAILExample], 1, 1, some (1, 1)⟩
      (by decide) rfl
  exact h.2.2.2.2.2.2.2

/-- Claim C7: reading results before evaluation fails loudly: if any check in the
checklist has an empty (`None`/`''`) result, or one starting with neither
`OK` nor `FAIL`, `print_checklist` with results (off the JSON path) fails an
assertion instead of printing or counting the check.
-/
theorem claim_C7_bad_result_asserts (mode : Option String) (cl : List Check)
    (c : Check) (hj : mode ≠ some "json") (hc : c ∈ cl)
    (hb : badResult c = true) :
    ∃ e, print_checklist mode cl true = Except.error e := by
  obtain ⟨e, he⟩ := printFold_bad mode cl (0, 0, []) ⟨c, hc, hb⟩
  refine ⟨e, ?_⟩
  unfold print_checklist
  rw [if_neg hj, he]

/-- Witness for C7: a checklist holding an unresolved check aborts. -/
theorem claim_C7_witness :
    ∃ e, print_checklist none [checkOKExample, checkBadExample] true
        = Except.error e :=
  claim_C7_bad_result_asserts none [checkOKExample, checkBadExample]
    checkBadExample (by simp) (by simp) rfl

/-- Claim C8: report order is checklist insertion order: the printed table is the
checklist filtered by the suppression predicate — a sublist, so no sorting
or reordering happens (with or without results) — and the one checklist
mutation in the driver, the removal of the `CONFIG_ARCH_MMAP_RND_BITS`
checks, is a filter as well, preserving the relative order of the remaining
checks.
-/
theorem claim_C8_order_preserved :
    (∀ (mode : Option String) (cl : List Check) (out : PrintOut),
        mode ≠ some "json" → print_checklist mode cl true = Except.ok out →
        out.table = cl.filter (printKeep mode true) ∧ List.Sublist out.table cl) ∧
    (∀ (mode : Option String) (cl : List Check) (out : PrintOut),
        mode ≠ some "json" → print_checklist mode cl false = Except.ok out →
        out.table = cl) ∧
    (∀ (cl : List Check) (n : String),
        List.Sublist (removeByName cl n) cl ∧
        ∀ c ∈ removeByName cl n, c.name ≠ n) := by
  refine ⟨?_, ?_, ?_⟩
  · intro mode cl out hj h
    unfold print_checklist at h
    rw [if_neg hj] at h
    cases hfold : printFold mode true (0, 0, []) cl with
    | error e => rw [hfold] at h; cases h
    | ok st =>
      obtain ⟨ok, fail, tbl⟩ := st
      rw [hfold] at h
      have hout := (Except.ok.inj h).symm
      subst hout
      obtain ⟨_, _, _, htbl⟩ := printFold_invariant mode cl 0 0 [] ok fail tbl hfold
      simp only [List.nil_append] at htbl
      exact ⟨htbl, htbl ▸ List.filter_sublist cl⟩
  · intro mode cl out hj h
    unfold print_checklist at h
    rw [if_neg hj, printFold_noresults mode cl 0 0 []] at h
    have hout := (Except.ok.inj h).symm
    subst hout
    simp
  · intro cl n
    refine ⟨List.filter_sublist cl, fun c hc => ?_⟩
    have := List.of_mem_filter hc
    simpa using this

/-- Witness for C8: the suppressed table is the order-preserving filter, and
the mmap removal is an order-preserving sublist. -/
theorem claim_C8_witness :
    List.Sublist (removeByName [checkOKExample, checkFAILExample] "CONFIG_BUG")
        [checkOKExample, checkFAILExample] ∧
    (⟨none, [checkFAILExample], 1, 1, some (1, 1)⟩ : PrintOut).table
      = [checkOKExample, checkFAILExample].filter (printKeep (some "show_fail") true) := by
  refine ⟨(claim_C8_order_preserved.2.2 [checkOKExample, checkFAILExample] "CONFIG_BUG").1, ?_⟩
  exact (claim_C8_order_preserved.1 (some "show_fail") [checkOKExample, checkFAILExample]
      ⟨none, [checkFAILExample], 1, 1, some (1, 1)⟩ (by decide) rfl).1

theorem perform_checking_destruct (cat : Catalog) (inp : RunInput)
    (tr : List Event) (cl : List Check)
    (h : perform_checking cat inp = Except.ok (tr, cl)) :
    ∃ arch cl0 trK clK trC clC trS clS,
      archStage inp = Except.ok arch ∧
      catalogStage cat inp arch = Except.ok cl0 ∧
      kconfigStage inp (versionPhase inp cl0).1 (versionPhase inp cl0).2
        = Except.ok (trK, clK) ∧
      cmdlineStage cat inp trK clK = Except.ok (trC, clC) ∧
      sysctlStage inp trC clC = Except.ok (trS, clS) ∧
      tr = trS ++ [Event.performChecksEv, Event.printChecklistEv] ∧
      cl = perform_checks clS := by
  unfold perform_checking at h
  cases h1 : archStage inp with
  | error e => simp only [h1] at h; cases h
  | ok arch =>
  simp only [h1] at h
  cases h2 : compilerStage inp with
  | error e => simp only [h2] at h; cases h
  | ok u =>
  simp only [h2] at h
  cases h3 : catalogStage cat inp arch with
  | error e => simp only [h3] at h; cases h
  | ok cl0 =>
  simp only [h3] at h
  cases h4 : kconfigStage inp (versionPhase inp cl0).1 (versionPhase inp cl0).2 with
  | error e => simp only [h4] at h; cases h
  | ok pK =>
  obtain ⟨trK, clK⟩ := pK
  simp only [h4] at h
  cases h5 : cmdlineStage cat inp trK clK with
  | error e => simp only [h5] at h; cases h
  | ok pC =>
  obtain ⟨trC, clC⟩ := pC
  simp only [h5] at h
  cases h6 : sysctlStage inp trC clC with
  | error e => simp only [h6] at h; cases h
  | ok pS =>
  obtain ⟨trS, clS⟩ := pS
  simp only [h6] at h
  simp only [Except.ok.injEq, Prod.mk.injEq] at h
  exact ⟨arch, cl0, trK, clK, trC, clC, trS, clS, rfl, h3, h4, h5, h6,
    h.1.symm, h.2.symm⟩

theorem versionPhase_trace (inp : RunInput) (cl : List Check) :
    (versionPhase inp cl).1 = [] ∨
    (versionPhase inp cl).1 = [Event.populateData "version"] := by
  unfold versionPhase
  cases inp.version with
  | none => exact Or.inl rfl
  | some v => exact Or.inr rfl

theorem kconfigStage_trace (inp : RunInput) (tr : List Event) (cl : List Check)
    (tr2 : List Event) (cl2 : List Check)
    (h : kconfigStage inp tr cl = Except.ok (tr2, cl2)) :
    (tr2 = tr ∧ cl2 = cl) ∨
    (∃ v, tr2 = tr ++ [Event.populateData "kconfig", Event.overrideExpected mmapName v]) ∨
    tr2 = tr ++ [Event.populateData "kconfig", Event.removeChecks mmapName] := by
  unfold kconfigStage at h
  cases hk : inp.kconfig with
  | none =>
    simp only [hk] at h
    simp only [Except.ok.injEq, Prod.mk.injEq] at h
    exact Or.inl ⟨h.1.symm, h.2.symm⟩
  | some kf =>
    simp only [hk] at h
    cases hp : parse_kconfig_file kf with
    | error e => simp only [hp] at h; cases h
    | ok pk =>
      simp only [hp] at h
      cases hg : dictGet pk mmapMaxName with
      | none =>
        simp only [hg] at h
        simp only [Except.ok.injEq, Prod.mk.injEq] at h
        exact Or.inr (Or.inr h.1.symm)
      | some v =>
        simp only [hg] at h
        by_cases hv : v = ""
        · rw [if_pos hv] at h
          simp only [Except.ok.injEq, Prod.mk.injEq] at h
          exact Or.inr (Or.inr h.1.symm)
        · rw [if_neg hv] at h
          simp only [Except.ok.injEq, Prod.mk.injEq] at h
          exact Or.inr (Or.inl ⟨v, h.1.symm⟩)

theorem cmdlineStage_trace (cat : Catalog) (inp : RunInput) (tr : List Event)
    (cl : List Check) (tr2 : List Event) (cl2 : List Check)
    (h : cmdlineStage cat inp tr cl = Except.ok (tr2, cl2)) :
    tr2 = tr ∨ tr2 = tr ++ [Event.populateData "cmdline"] := by
  unfold cmdlineStage at h
  cases hc : inp.cmdline with
  | none =>
    simp only [hc] at h
    simp only [Except.ok.injEq, Prod.mk.injEq] at h
    exact Or.inl h.1.symm
  | some cf =>
    simp only [hc] at h
    cases hp : parse_cmdline_file cat.normalizeCmdline cf with
    | error e => simp only [hp] at h; cases h
    | ok pc =>
      simp only [hp] at h
      simp only [Except.ok.injEq, Prod.mk.injEq] at h
      exact Or.inr h.1.symm

theorem sysctlStage_trace (inp : RunInput) (tr : List Event) (cl : List Check)
    (tr2 : List Event) (cl2 : List Check)
    (h : sysctlStage inp tr cl = Except.ok (tr2, cl2)) :
    tr2 = tr ∨ tr2 = tr ++ [Event.populateData "sysctl"] := by
  unfold sysctlStage at h
  cases hs : inp.sysctl with
  | none =>
    simp only [hs] at h
    simp only [Except.ok.injEq, Prod.mk.injEq] at h
    exact Or.inl h.1.symm
  | some sf =>
    simp only [hs] at h
    cases hp : parse_sysctl_file sf with
    | error e => simp only [hp] at h; cases h
    | ok ps =>
      simp only [hp] at h
      simp only [Except.ok.injEq, Prod.mk.injEq] at h
      exact Or.inr h.1.symm

/-- Counterexample to claim C2 as stated: in a run with both a kconfig and a
cmdline file in which the override is taken, the `populate_with_data` call
for the cmdline source happens *after* the `override_expected_value` call,
so the override does not come after all populate calls of the run.
-/
theorem claim_C2_counterexample :
    Except.map Prod.fst (perform_checking catMmap inpMmap)
      = Except.ok [Event.populateData "kconfig",
          Event.overrideExpected mmapName "32",
          Event.populateData "cmdline",
          Event.performChecksEv, Event.printChecklistEv] ∧
    c2ClaimHolds [Event.populateData "kconfig",
        Event.overrideExpected mmapName "32",
        Event.populateData "cmdline",
        Event.performChecksEv, Event.printChecklistEv] = false :=
  ⟨rfl, rfl⟩

/-- Claim C2 (amended): in every run of `perform_checking`, every call to
`override_expected_value` occurs after the `populate_with_data` call for the
kconfig source (and after the version population, when supplied: neither of
those populations follows an override) and before `perform_checks`; the
cmdline and sysctl `populate_with_data` calls, when those sources are
supplied, occur after the override.
-/
theorem claim_C2_amended (cat : Catalog) (inp : RunInput) (tr : List Event)
    (cl : List Check) (h : perform_checking cat inp = Except.ok (tr, cl)) :
    c2AmendedHolds tr = true := by
  obtain ⟨arch, cl0, trK, clK, trC, clC, trS, clS, _, _, h4, h5, h6, htr, _⟩ :=
    perform_checking_destruct cat inp tr cl h
  subst htr
  rcases versionPhase_trace inp cl0 with hA | hA <;>
    rcases kconfigStage_trace inp _ _ _ _ h4 with ⟨hB, _⟩ | ⟨v, hB⟩ | hB <;>
      rcases cmdlineStage_trace cat inp _ _ _ _ h5 with hC | hC <;>
        rcases sysctlStage_trace inp _ _ _ _ h6 with hD | hD <;>
          rw [hD, hC, hB, hA] <;> rfl

/-- Witness for the amended C2, from the concrete run of the counterexample:
the override sits after the kconfig population and before `perform_checks`
(the cmdline population follows it). -/
theorem claim_C2_amended_witness :
    c2AmendedHolds [Event.populateData "kconfig",
        Event.overrideExpected mmapName "32",
        Event.populateData "cmdline",
        Event.performChecksEv, Event.printChecklistEv] = true :=
  claim_C2_amended catMmap inpMmap
    [Event.populateData "kconfig", Event.overrideExpected mmapName "32",
     Event.populateData "cmdline", Event.performChecksEv, Event.printChecklistEv]
    [{ name := mmapName, source := "kconfig", expected := "32",
       observed := none, observedVersion := none,
       result := some "FAIL: is not found" }]
    rfl

theorem mem_populate_with_data (cl : List Check) (d : Dict) (t : String) (c : Check)
    (h : c ∈ populate_with_data cl d t) :
    ∃ c0 ∈ cl, c.name = c0.name ∧ c.expected = c0.expected := by
  obtain ⟨c0, hc0, hmap⟩ := List.mem_map.mp h
  refine ⟨c0, hc0, ?_, ?_⟩ <;> rw [← hmap] <;> by_cases hs : c0.source = t <;> simp [hs]

theorem mem_perform_checks (cl : List Check) (c : Check) (h : c ∈ perform_checks cl) :
    ∃ c0 ∈ cl, c.name = c0.name ∧ c.expected = c0.expected := by
  obtain ⟨c0, hc0, hmap⟩ := List.mem_map.mp h
  exact ⟨c0, hc0, by rw [← hmap]; rfl, by rw [← hmap]; rfl⟩

theorem mem_override_expected (cl : List Check) (n v : String) (c : Check)
    (h : c ∈ override_expected_value cl n v) (hn : c.name = n) : c.expected = v := by
  obtain ⟨c0, hc0, hmap⟩ := List.mem_map.mp h
  by_cases hs : c0.name = n
  · rw [← hmap]
    simp [hs]
  · rw [← hmap] at hn
    simp [hs] at hn

theorem mem_removeByName (cl : List Check) (n : String) (c : Check)
    (h : c ∈ removeByName cl n) : c.name ≠ n := by
  have := List.of_mem_filter h
  simpa using this

theorem cmdlineStage_mem (cat : Catalog) (inp : RunInput) (tr : List Event)
    (cl : List Check) (tr2 : List Event) (cl2 : List Check)
    (h : cmdlineStage cat inp tr cl = Except.ok (tr2, cl2)) (c : Check)
    (hc : c ∈ cl2) : ∃ c0 ∈ cl, c.name = c0.name ∧ c.expected = c0.expected := by
  unfold cmdlineStage at h
  cases hcm : inp.cmdline with
  | none =>
    simp only [hcm, Except.ok.injEq, Prod.mk.injEq] at h
    rw [← h.2] at hc
    exact ⟨c, hc, rfl, rfl⟩
  | some cf =>
    simp only [hcm] at h
    cases hp : parse_cmdline_file cat.normalizeCmdline cf with
    | error e => simp only [hp] at h; cases h
    | ok pc =>
      simp only [hp, Except.ok.injEq, Prod.mk.injEq] at h
      rw [← h.2] at hc
      exact mem_populate_with_data cl pc "cmdline" c hc

theorem sysctlStage_mem (inp : RunInput) (tr : List Event)
    (cl : List Check) (tr2 : List Event) (cl2 : List Check)
    (h : sysctlStage inp tr cl = Except.ok (tr2, cl2)) (c : Check)
    (hc : c ∈ cl2) : ∃ c0 ∈ cl, c.name = c0.name ∧ c.expected = c0.expected := by
  unfold sysctlStage at h
  cases hsy : inp.sysctl with
  | none =>
    simp only [hsy, Except.ok.injEq, Prod.mk.injEq] at h
    rw [← h.2] at hc
    exact ⟨c, hc, rfl, rfl⟩
  | some sf =>
    simp only [hsy] at h
    cases hp : parse_sysctl_file sf with
    | error e => simp only [hp] at h; cases h
    | ok ps =>
      simp only [hp, Except.ok.injEq, Prod.mk.injEq] at h
      rw [← h.2] at hc
      exact mem_populate_with_data cl ps "sysctl" c hc

theorem kconfigStage_cl (inp : RunInput) (tr : List Event) (cl : List Check)
    (kf : List String) (pk : Dict) (tr2 : List Event) (cl2 : List Check)
    (hk : inp.kconfig = some kf) (hp : parse_kconfig_file kf = Except.ok pk)
    (h : kconfigStage inp tr cl = Except.ok (tr2, cl2)) :
    (∀ v, dictGet pk mmapMaxName = some v → v ≠ "" →
      tr2 = tr ++ [Event.populateData "kconfig", Event.overrideExpected mmapName v] ∧
      cl2 = override_expected_value (populate_with_data cl pk "kconfig") mmapName v) ∧
    ((dictGet pk mmapMaxName = none ∨ dictGet pk mmapMaxName = some "") →
      tr2 = tr ++ [Event.populateData "kconfig", Event.removeChecks mmapName] ∧
      cl2 = removeByName (populate_with_data cl pk "kconfig") mmapName) := by
  unfold kconfigStage at h
  simp only [hk, hp] at h
  constructor
  · intro v hv hne
    simp only [hv] at h
    rw [if_neg hne] at h
    simp only [Except.ok.injEq, Prod.mk.injEq] at h
    exact ⟨h.1.symm, h.2.symm⟩
  · rintro (hv | hv)
    · simp only [hv, Except.ok.injEq, Prod.mk.injEq] at h
      exact ⟨h.1.symm, h.2.symm⟩
    · simp only [hv] at h
      rw [if_pos trivial] at h
      simp only [Except.ok.injEq, Prod.mk.injEq] at h
      exact ⟨h.1.symm, h.2.symm⟩

/-- Claim C1: in every completed run of `perform_checking` with a kconfig file
supplied, after the kconfig mapping is parsed and populated: if the mapping
holds a non-empty value for `CONFIG_ARCH_MMAP_RND_BITS_MAX`, then
`override_expected_value` is called to set the expected value of the
`CONFIG_ARCH_MMAP_RND_BITS` check to that observed value (the call is in the
trace and every check of that name reaches the report with that expected
value); otherwise every check of that name is removed from the checklist
before evaluation, so the printed checklist holds no such check and no
verdict is reported for it.
-/
theorem claim_C1_mmap_refinement (cat : Catalog) (inp : RunInput)
    (kf : List String) (pk : Dict) (tr : List Event) (cl : List Check)
    (hkf : inp.kconfig = some kf)
    (hpk : parse_kconfig_file kf = Except.ok pk)
    (hrun : perform_checking cat inp = Except.ok (tr, cl)) :
    (∀ v, dictGet pk mmapMaxName = some v → v ≠ "" →
      Event.overrideExpected mmapName v ∈ tr ∧
      ∀ c ∈ cl, c.name = mmapName → c.expected = v) ∧
    ((dictGet pk mmapMaxName = none ∨ dictGet pk mmapMaxName = some "") →
      Event.removeChecks mmapName ∈ tr ∧ ∀ c ∈ cl, c.name ≠ mmapName) := by
  obtain ⟨arch, cl0, trK, clK, trC, clC, trS, clS, _, _, h4, h5, h6, htr, hcl⟩ :=
    perform_checking_destruct cat inp tr cl hrun
  obtain ⟨hov, hrm⟩ := kconfigStage_cl inp _ _ kf pk _ _ hkf hpk h4
  have htrKC : ∀ e, e ∈ trK → e ∈ trC := by
    rcases cmdlineStage_trace cat inp _ _ _ _ h5 with hC | hC <;>
      intro e he <;> rw [hC] <;> simp [he]
  have htrCS : ∀ e, e ∈ trC → e ∈ trS := by
    rcases sysctlStage_trace inp _ _ _ _ h6 with hD | hD <;>
      intro e he <;> rw [hD] <;> simp [he]
  have hmem : ∀ e, e ∈ trK → e ∈ tr := by
    intro e he
    rw [htr]
    exact List.mem_append_left _ (htrCS e (htrKC e he))
  have hclmem : ∀ c ∈ cl, ∃ c0 ∈ clK, c.name = c0.name ∧ c.expected = c0.expected := by
    intro c hc
    rw [hcl] at hc
    obtain ⟨c1, hc1, hn1, he1⟩ := mem_perform_checks clS c hc
    obtain ⟨c2, hc2, hn2, he2⟩ := sysctlStage_mem inp _ _ _ _ h6 c1 hc1
    obtain ⟨c3, hc3, hn3, he3⟩ := cmdlineStage_mem cat inp _ _ _ _ h5 c2 hc2
    exact ⟨c3, hc3, by rw [hn1, hn2, hn3], by rw [he1, he2, he3]⟩
  constructor
  · intro v hv hne
    obtain ⟨htrK, hclK⟩ := hov v hv hne
    constructor
    · exact hmem _ (by rw [htrK]; simp)
    · intro c hc hname
      obtain ⟨c0, hc0, hn0, he0⟩ := hclmem c hc
      rw [hclK] at hc0
      rw [he0]
      exact mem_override_expected _ mmapName v c0 hc0 (by rw [← hn0]; exact hname)
  · intro hv
    obtain ⟨htrK, hclK⟩ := hrm hv
    constructor
    · exact hmem _ (by rw [htrK]; simp)
    · intro c hc
      obtain ⟨c0, hc0, hn0, _⟩ := hclmem c hc
      rw [hclK] at hc0
      rw [hn0]
      exact mem_removeByName _ mmapName c0 hc0

/-- Witness for C1, on the concrete run: `CONFIG_ARCH_MMAP_RND_BITS_MAX=32`
is parsed, and the trace holds the override call with `32`. -/
theorem claim_C1_witness :
    Event.overrideExpected mmapName "32"
      ∈ [Event.populateData "kconfig", Event.overrideExpected mmapName "32",
         Event.populateData "cmdline", Event.performChecksEv,
         Event.printChecklistEv] := by
  have h := (claim_C1_mmap_refinement catMmap inpMmap
      ["CONFIG_X86_64=y", "CONFIG_ARCH_MMAP_RND_BITS_MAX=32"]
      [("CONFIG_X86_64", "y"), ("CONFIG_ARCH_MMAP_RND_BITS_MAX", "32")]
      [Event.populateData "kconfig", Event.overrideExpected mmapName "32",
       Event.populateData "cmdline", Event.performChecksEv, Event.printChecklistEv]
      [{ name := mmapName, source := "kconfig", expected := "32",
         observed := none, observedVersion := none,
         result := some "FAIL: is not found" }]
      rfl rfl rfl).1 "32" rfl (by decide)
  exact h.1

end KHC
